import Mathlib

/-!
Verification of the borrow-check error-reporting core
(`src/librustc_mir/borrow_check/error_reporting.rs` and
`src/librustc_mir/borrow_check/place_ext.rs`) against its
natural-language specification.

The Rust code is shallowly embedded: places, projections, MIR statements
and the move data are plain inductive data; the compiler context (`tcx`,
`mir`, HIR lookups) is an explicit `Env` record of oracle functions; the
mutable fields of `MirBorrowckCtxt` (suppression sets and the diagnostics
buffer) are an explicit `CkState` threaded through each reporting
function.  Helpers whose definitions live outside the two embedded files
(`elem_base`, `split_projection`, the `tcx.cannot_*` diagnostic builders,
`explain_why_borrow_contains_point`, closure capture lookup,
`InitializationRequiringAction`) are modelled from the spec and carry a
doc comment saying so.  Fatal branches of the Rust code (the `bug!` macro
and slice-index panics) are modelled by `Option`, `none` standing for the
abort.
-/

namespace BorrowCk

/-- Spans and index types are plain naturals; only equality of spans is
ever inspected by the embedded code. -/
abbrev Span := Nat

abbrev Local := Nat

abbrev Field := Nat

abbrev MovePathIndex := Nat

abbrev MoveOutIndex := Nat

/-- Types as far as `describe_field_from_ty`, `retrieve_type_for_place`
and the `Copy`-note logic inspect them (`ty.sty` plus the `is_box` /
`boxed_ty` view).  `ty_adt` carries the non-enum variant's field
identifiers; `ty_other` stands for every `sty` the source's
`describe_field_from_ty` does not handle (its `bug!` arm). -/
inductive Ty : Type where
  | ty_box (t : Ty)
  | ty_adt (is_enum : Bool) (field_idents : List String)
  | ty_tuple
  | ty_ref (t : Ty)
  | ty_raw_ptr (t : Ty)
  | ty_array (t : Ty)
  | ty_slice (t : Ty)
  | ty_closure (def_id : Nat)
  | ty_generator (def_id : Nat)
  | ty_other
deriving DecidableEq, Repr

/-- One step of structural access (`rustc::mir::ProjectionElem`).  The
`downcast` constructor carries the ADT definition's variants as lists of
field identifiers, which is all `describe_field` reads from the
`AdtDef`. -/
inductive ProjectionElem : Type where
  | deref
  | field (f : Field) (ty : Ty)
  | index (l : Local)
  | constant_index
  | subslice
  | downcast (variants : List (List String)) (variant_index : Nat)
deriving DecidableEq, Repr

/-- A static item's data as read by the embedded code. -/
structure Static where
  def_id : Nat
  ty : Ty
deriving DecidableEq, Repr

/-- The root of a place (`rustc::mir::PlaceBase`). -/
inductive PlaceBase : Type where
  | local_ (l : Local)
  | static_ (s : Static)
  | promoted (p : Nat × Ty)
deriving DecidableEq, Repr

/-- A place: a root plus an ordered projection sequence
(`rustc::mir::Place` in this branch's flattened representation). -/
structure Place : Type where
  base : PlaceBase
  elems : List ProjectionElem
deriving DecidableEq, Repr

def Place.has_no_projection (p : Place) : Bool :=
  p.elems.isEmpty

/-- Modelled from the spec: decomposition of a Path into the path minus
its outermost projection and that projection (§3 "root plus an ordered
list of projections; provides decomposition").  The source's
`Place::split_projection` is defined outside the embedded files; its two
call sites in `place_ext.rs` peel one projection per call. -/
def Place.split_projection (p : Place) : Option (Place × ProjectionElem) :=
  match p.elems.getLast? with
  | none => none
  | some e => some ({ base := p.base, elems := p.elems.dropLast }, e)

/-- Modelled from the spec: `place.elem_base(tcx, 0)` truncates the
projection sequence, yielding for argument `0` the root Path used as the
suppression-set key (§3 "Suppression Records ... root Paths"). -/
def Place.elem_base (p : Place) (i : Nat) : Place :=
  { base := p.base, elems := p.elems.take i }

theorem Place.split_projection_length {p b : Place} {e : ProjectionElem}
    (h : p.split_projection = some (b, e)) : b.elems.length < p.elems.length := by
  unfold Place.split_projection at h
  cases hl : p.elems.getLast? with
  | none => rw [hl] at h; exact absurd h (by simp)
  | some e0 =>
    rw [hl] at h
    have hne : p.elems ≠ [] := by
      intro hnil; rw [hnil] at hl; exact absurd hl (by simp)
    have hb : b.elems = p.elems.dropLast := by
      injection h with h1; cases h1; rfl
    rw [hb, List.length_dropLast]
    have : 0 < p.elems.length := List.length_pos.mpr hne
    omega

/-- `Place::root_local` from `place_ext.rs`: strip projections one at a
time; at the bare base, a local root yields `some`, a static or promoted
root yields `none`. -/
def Place.root_local (p : Place) : Option Local :=
  match hp : p.split_projection with
  | some bp => Place.root_local bp.1
  | none =>
    match p.base with
    | PlaceBase.promoted _ => none
    | PlaceBase.static_ _ => none
    | PlaceBase.local_ l => some l
termination_by p.elems.length
decreasing_by
  exact Place.split_projection_length (by rw [hp])

/-- `LocalKind` of `rustc::mir`. -/
inductive LocalKind : Type where
  | var
  | temp
  | arg
  | return_pointer
deriving DecidableEq, Repr

/-- `VarBindingForm`: only `opt_match_place` is inspected by the embedded
code (presence selects the pattern-bound special case of
`report_illegal_reassignment`). -/
structure VarBindingForm : Type where
  opt_match_place : Option (Option Place × Span)
deriving DecidableEq, Repr

inductive BindingForm : Type where
  | var (v : VarBindingForm)
  | implicit_self
deriving DecidableEq, Repr

inductive ClearCrossCrate (α : Type) : Type where
  | clear
  | set (v : α)
deriving DecidableEq, Repr

structure SourceInfo : Type where
  span : Span
deriving DecidableEq, Repr

/-- A local's declaration data as read by the embedded code.
`can_be_made_mutable` models the source's `LocalDecl::can_be_made_mutable`
method, which is defined outside the embedded files (modelled from the
spec's "declared mutable" flag on locals, §3). -/
structure LocalDecl : Type where
  name : Option String
  ty : Ty
  source_info : SourceInfo
  is_user_variable : Option (ClearCrossCrate BindingForm)
  can_be_made_mutable : Bool
deriving DecidableEq, Repr

structure UpvarDecl : Type where
  debug_name : String
  by_ref : Bool
deriving DecidableEq, Repr

/-- A free variable of a closure expression: its capturing-site span
(`v.span`) and its name (`tcx.hir.name(v.var_id())`). -/
structure Freevar : Type where
  span : Span
  name : String
deriving DecidableEq, Repr

inductive Operand : Type where
  | copy (p : Place)
  | move (p : Place)
  | constant
deriving DecidableEq, Repr

inductive AggregateKind : Type where
  | closure (def_id : Nat)
  | other
deriving DecidableEq, Repr

inductive Rvalue : Type where
  | aggregate (kind : AggregateKind) (ops : List Operand)
  | use_rv (op : Operand)
  | other
deriving DecidableEq, Repr

inductive StatementKind : Type where
  | assign (lhs : Place) (rhs : Rvalue)
  | other
deriving DecidableEq, Repr

structure Statement : Type where
  kind : StatementKind
  source_info : SourceInfo
deriving DecidableEq, Repr

structure BasicBlockData : Type where
  statements : List Statement
  terminator_span : Span
deriving DecidableEq, Repr

structure Location : Type where
  block : Nat
  statement_index : Nat
deriving DecidableEq, Repr

/-- The MIR body as read by the embedded code.  Index lookups that the
source performs by total indexing (`self.mir[bb]`, `local_decls[l]`,
`upvar_decls[i]`) are modelled as total maps; a malformed index is a
precondition violation upstream (spec §7). -/
structure Mir : Type where
  blocks : Nat → BasicBlockData
  local_decls : Local → LocalDecl
  local_kinds : Local → LocalKind
  upvar_decls : Nat → UpvarDecl

/-- `Mir::source_info(location)`: the statement's source info, or the
terminator's when the index is one past the statements. -/
def Mir.source_info (mir : Mir) (loc : Location) : SourceInfo :=
  match (mir.blocks loc.block).statements[loc.statement_index]? with
  | some stmt => stmt.source_info
  | none => { span := (mir.blocks loc.block).terminator_span }

/-- One recorded move: the move path moved out of and the location of the
move (`dataflow::move_paths::MoveOut`). -/
structure MoveOut : Type where
  path : MovePathIndex
  source : Location
deriving DecidableEq, Repr

structure MovePath : Type where
  place : Place
deriving DecidableEq, Repr

structure MoveData : Type where
  path_map : MovePathIndex → List MoveOutIndex
  moves : MoveOutIndex → MoveOut
  move_paths : MovePathIndex → MovePath

/-- The compiler context consumed by the reporting code: the MIR body,
the move data, and the `tcx`/HIR oracles.  `is_upvar_field_projection`,
`closure_kind_origin` and `explain_notes` model collaborator behaviour
that lives outside the embedded files (modelled from the spec, §4.5/§6:
upvar naming, capture-kind origin of a closure, and the explanatory note
chain appended by `explain_why_borrow_contains_point`). -/
structure Env : Type where
  mir : Mir
  move_data : MoveData
  item_name : Nat → String
  as_local_node_id : Nat → Option Nat
  closure_args_span : Nat → Option Span
  freevars : Nat → List Freevar
  closure_kind_origin : Nat → Bool
  is_upvar_field_projection : Place → Option Nat
  explain_notes : List String

/-- `describe_field_from_ty` (abort-aware): `none` models the `bug!`
branch and the slice-index panics on an out-of-range field. -/
def describe_field_from_ty (env : Env) : Ty → Field → Option String
  | Ty.ty_box t, f => describe_field_from_ty env t f
  | Ty.ty_adt is_enum field_idents, f =>
    if is_enum then some (toString f)
    else
      match field_idents[f]? with
      | some id => some id
      | none => none
  | Ty.ty_tuple, f => some (toString f)
  | Ty.ty_ref t, f => describe_field_from_ty env t f
  | Ty.ty_raw_ptr t, f => describe_field_from_ty env t f
  | Ty.ty_array t, f => describe_field_from_ty env t f
  | Ty.ty_slice t, f => describe_field_from_ty env t f
  | Ty.ty_closure def_id, f =>
    (match env.as_local_node_id def_id with
     | some node_id =>
       match (env.freevars node_id)[f]? with
       | some fv => some fv.name
       | none => none
     | none => none)
  | Ty.ty_generator def_id, f =>
    (match env.as_local_node_id def_id with
     | some node_id =>
       match (env.freevars node_id)[f]? with
       | some fv => some fv.name
       | none => none
     | none => none)
  | Ty.ty_other, _ => none

/-- Well-typedness of a field access against a type: the recursive
precondition under which `describe_field_from_ty` stays clear of its
`bug!` arm and of out-of-range indexing (spec §7: malformed input is an
upstream precondition violation). -/
def field_well_typed (env : Env) : Ty → Field → Bool
  | Ty.ty_box t, f => field_well_typed env t f
  | Ty.ty_adt is_enum field_idents, f => is_enum || f < field_idents.length
  | Ty.ty_tuple, _ => true
  | Ty.ty_ref t, f => field_well_typed env t f
  | Ty.ty_raw_ptr t, f => field_well_typed env t f
  | Ty.ty_array t, f => field_well_typed env t f
  | Ty.ty_slice t, f => field_well_typed env t f
  | Ty.ty_closure def_id, f =>
    (match env.as_local_node_id def_id with
     | some node_id => f < (env.freevars node_id).length
     | none => false)
  | Ty.ty_generator def_id, f =>
    (match env.as_local_node_id def_id with
     | some node_id => f < (env.freevars node_id).length
     | none => false)
  | Ty.ty_other, _ => false

/-- The tail of `describe_field`: walk the projection sequence appending
per-elem descriptions; `none` models the fatal indexing branches. -/
def describe_field_elems (env : Env) (f : Field) :
    List ProjectionElem → String → Option String
  | [], s => some s
  | elem :: rest, s =>
    match elem with
    | ProjectionElem.downcast variants variant_index =>
      (match (variants[variant_index]?).bind (fun fields => fields[f]?) with
       | some id => describe_field_elems env f rest (s ++ id)
       | none => none)
    | ProjectionElem.field _ field_type =>
      (match describe_field_from_ty env field_type f with
       | some fs => describe_field_elems env f rest (s ++ fs)
       | none => none)
    | _ => describe_field_elems env f rest s

/-- `describe_field`: description of the `field`th field of `place`.
The source returns `String` and aborts on malformed input; the abort is
modelled as `none`. -/
def describe_field (env : Env) (place : Place) (f : Field) : Option String :=
  let start :=
    match place.base with
    | PlaceBase.local_ l => describe_field_from_ty env (env.mir.local_decls l).ty f
    | PlaceBase.promoted pr => describe_field_from_ty env pr.2 f
    | PlaceBase.static_ s => describe_field_from_ty env s.ty f
  match start with
  | some s => describe_field_elems env f place.elems s
  | none => none

/-- `append_local_to_string`: push the local's name, or fail when it has
none. -/
def append_local_to_string (env : Env) (local_index : Local) (buf : String) :
    Option String :=
  match (env.mir.local_decls local_index).name with
  | some name => some (buf ++ name)
  | none => none

/-- `append_place_base_to_string`. -/
def append_place_base_to_string (env : Env) (base : PlaceBase) (buf : String) :
    Option String :=
  match base with
  | PlaceBase.promoted _ => some (buf ++ "promoted")
  | PlaceBase.local_ l => append_local_to_string env l buf
  | PlaceBase.static_ s => some (buf ++ env.item_name s.def_id)

/-- `append_place_projection_to_string`.  The source's failure result
`Err(())` (no stable name, or a downcast under `IncludingDowncast(true)`)
is `none`; the fatal branches reached through `describe_field` are folded
into the same failure. -/
def append_place_projection_to_string (env : Env) (place : Place)
    (projection : ProjectionElem) (buf : String) (including_downcast : Bool) :
    Option String :=
  match projection with
  | ProjectionElem.deref =>
    (match env.is_upvar_field_projection place with
     | some var_index =>
       let uv := env.mir.upvar_decls var_index
       if uv.by_ref then some (buf ++ uv.debug_name)
       else some (buf ++ "*" ++ uv.debug_name)
     | none => some (buf ++ "*"))
  | ProjectionElem.downcast _ _ =>
    if including_downcast then none else some buf
  | ProjectionElem.field f _ =>
    (match env.is_upvar_field_projection place with
     | some var_index => some (buf ++ (env.mir.upvar_decls var_index).debug_name)
     | none =>
       match describe_field env place f with
       | some field_name => some (buf ++ "." ++ field_name)
       | none => none)
  | ProjectionElem.index i =>
    (match append_local_to_string env i (buf ++ "[") with
     | some buf2 => some (buf2 ++ "]")
     | none => some (buf ++ "[" ++ ".." ++ "]"))
  | ProjectionElem.constant_index => some (buf ++ "[..]")
  | ProjectionElem.subslice => some (buf ++ "[..]")

/-- The projection loop of `append_place_to_string`. -/
def append_projections (env : Env) (place : Place) :
    List ProjectionElem → String → Bool → Option String
  | [], buf, _ => some buf
  | elem :: rest, buf, including_downcast =>
    match append_place_projection_to_string env place elem buf including_downcast with
    | some buf2 => append_projections env place rest buf2 including_downcast
    | none => none

/-- `append_place_to_string`. -/
def append_place_to_string (env : Env) (place : Place) (buf : String)
    (including_downcast : Bool) : Option String :=
  match append_place_base_to_string env place.base buf with
  | some buf2 => append_projections env place place.elems buf2 including_downcast
  | none => none

/-- `describe_place_with_options`. -/
def describe_place_with_options (env : Env) (place : Place)
    (including_downcast : Bool) : Option String :=
  append_place_to_string env place "" including_downcast

/-- `describe_place`. -/
def describe_place (env : Env) (place : Place) : Option String :=
  describe_place_with_options env place false

/-- `retrieve_type_for_place`: base type, overridden by the final
projection — a field projection carries its type, any other final
projection yields `none`. -/
def retrieve_type_for_place (env : Env) (place : Place) : Option Ty :=
  let ty :=
    match place.base with
    | PlaceBase.local_ l => some (env.mir.local_decls l).ty
    | PlaceBase.promoted pr => some pr.2
    | PlaceBase.static_ s => some s.ty
  match place.elems.getLast? with
  | some (ProjectionElem.field _ fty) => some fty
  | some _ => none
  | none => ty

/-- The tag identifying which `tcx.cannot_*` primary-message builder a
diagnostic came from — the conflict sub-kind in the spec's terms.
`unreachable_shared_shared` marks the `unreachable!()` arm of
`report_conflicting_borrow`. -/
inductive ErrCtor : Type where
  | cannot_act_on_uninitialized_variable
  | cannot_act_on_moved_value
  | cannot_reborrow_already_borrowed
  | cannot_mutably_borrow_multiply
  | cannot_uniquely_borrow_by_two_closures
  | cannot_uniquely_borrow_by_one_closure
  | cannot_reborrow_already_uniquely_borrowed
  | cannot_move_when_borrowed
  | cannot_use_when_mutably_borrowed
  | path_does_not_live_long_enough
  | cannot_assign_to_borrowed
  | cannot_reassign_immutable
  | unreachable_shared_shared
deriving DecidableEq, Repr

/-- A buffered diagnostic: the builder it came from, its primary span and
string arguments, secondary `(span, label)` annotations, and note
strings — exactly the shape the spec exposes downstream (§6). -/
structure Diagnostic : Type where
  ctor : ErrCtor
  primary_span : Span
  desc : List String
  labels : List (Span × String)
  notes : List String
deriving DecidableEq, Repr

def Diagnostic.span_label (d : Diagnostic) (sp : Span) (msg : String) : Diagnostic :=
  { d with labels := d.labels ++ [(sp, msg)] }

def Diagnostic.note (d : Diagnostic) (msg : String) : Diagnostic :=
  { d with notes := d.notes ++ [msg] }

/-- Modelled from the spec: the `tcx.cannot_*` builders of
`util::borrowck_errors` construct a structured diagnostic from a primary
span and message arguments (§6); each is modelled as tagging the
diagnostic with its constructor and recording its string arguments. -/
def cannot_act_on_uninitialized_variable (span : Span) (verb : String)
    (desc : String) : Diagnostic :=
  { ctor := ErrCtor.cannot_act_on_uninitialized_variable, primary_span := span,
    desc := [verb, desc], labels := [], notes := [] }

/-- Modelled from the spec: see `cannot_act_on_uninitialized_variable`. -/
def cannot_act_on_moved_value (span : Span) (verb : String) (msg : String)
    (opt_place : Option String) : Diagnostic :=
  { ctor := ErrCtor.cannot_act_on_moved_value, primary_span := span,
    desc := [verb, msg, opt_place.getD ""], labels := [], notes := [] }

/-- Modelled from the spec: see `cannot_act_on_uninitialized_variable`. -/
def cannot_reborrow_already_borrowed (span : Span) (desc_place : String)
    (lft : String) (issued_span : Span) (rgt : String) : Diagnostic :=
  { ctor := ErrCtor.cannot_reborrow_already_borrowed, primary_span := span,
    desc := [desc_place, lft, toString issued_span, rgt], labels := [], notes := [] }

/-- Modelled from the spec: see `cannot_act_on_uninitialized_variable`. -/
def cannot_mutably_borrow_multiply (span : Span) (desc_place : String)
    (issued_span : Span) : Diagnostic :=
  { ctor := ErrCtor.cannot_mutably_borrow_multiply, primary_span := span,
    desc := [desc_place, toString issued_span], labels := [], notes := [] }

/-- Modelled from the spec: see `cannot_act_on_uninitialized_variable`. -/
def cannot_uniquely_borrow_by_two_closures (span : Span) (desc_place : String)
    (issued_span : Span) : Diagnostic :=
  { ctor := ErrCtor.cannot_uniquely_borrow_by_two_closures, primary_span := span,
    desc := [desc_place, toString issued_span], labels := [], notes := [] }

/-- Modelled from the spec: see `cannot_act_on_uninitialized_variable`. -/
def cannot_uniquely_borrow_by_one_closure (span : Span) (desc_place : String)
    (issued_span : Span) : Diagnostic :=
  { ctor := ErrCtor.cannot_uniquely_borrow_by_one_closure, primary_span := span,
    desc := [desc_place, toString issued_span], labels := [], notes := [] }

/-- Modelled from the spec: see `cannot_act_on_uninitialized_variable`. -/
def cannot_reborrow_already_uniquely_borrowed (span : Span) (desc_place : String)
    (lft : String) (issued_span : Span) : Diagnostic :=
  { ctor := ErrCtor.cannot_reborrow_already_uniquely_borrowed, primary_span := span,
    desc := [desc_place, lft, toString issued_span], labels := [], notes := [] }

/-- Modelled from the spec: see `cannot_act_on_uninitialized_variable`. -/
def cannot_move_when_borrowed (span : Span) (desc : String) : Diagnostic :=
  { ctor := ErrCtor.cannot_move_when_borrowed, primary_span := span,
    desc := [desc], labels := [], notes := [] }

/-- Modelled from the spec: see `cannot_act_on_uninitialized_variable`. -/
def cannot_use_when_mutably_borrowed (span : Span) (desc : String)
    (borrow_span : Span) (borrow_desc : String) : Diagnostic :=
  { ctor := ErrCtor.cannot_use_when_mutably_borrowed, primary_span := span,
    desc := [desc, toString borrow_span, borrow_desc], labels := [], notes := [] }

/-- Modelled from the spec: see `cannot_act_on_uninitialized_variable`. -/
def path_does_not_live_long_enough (span : Span) (path : String) : Diagnostic :=
  { ctor := ErrCtor.path_does_not_live_long_enough, primary_span := span,
    desc := [path], labels := [], notes := [] }

/-- Modelled from the spec: see `cannot_act_on_uninitialized_variable`. -/
def cannot_assign_to_borrowed (span : Span) (borrow_span : Span)
    (desc : String) : Diagnostic :=
  { ctor := ErrCtor.cannot_assign_to_borrowed, primary_span := span,
    desc := [toString borrow_span, desc], labels := [], notes := [] }

/-- Modelled from the spec: see `cannot_act_on_uninitialized_variable`. -/
def cannot_reassign_immutable (span : Span) (desc : String) (from_arg : Bool) :
    Diagnostic :=
  { ctor := ErrCtor.cannot_reassign_immutable, primary_span := span,
    desc := [desc, if from_arg then "arg" else "var"], labels := [], notes := [] }

/-- The `unreachable!()` arm of `report_conflicting_borrow`'s match. -/
def unreachable_diagnostic : Diagnostic :=
  { ctor := ErrCtor.unreachable_shared_shared, primary_span := 0,
    desc := [], labels := [], notes := [] }

/-- Modelled from the spec: `explain_why_borrow_contains_point` (defined
outside the embedded files) appends the explanatory note chain supplied
by the lifetime collaborator to the diagnostic (§4.5, §6); it never
changes the primary message or existing labels. -/
def explain_why_borrow_contains_point (env : Env) (err : Diagnostic) : Diagnostic :=
  { err with notes := err.notes ++ env.explain_notes }

/-- The span(s) associated to a use of a place (`UseSpans`). -/
inductive UseSpans : Type where
  | closure_use (args_span : Span) (var_span : Span)
  | other_use (s : Span)
deriving DecidableEq, Repr

def UseSpans.args_or_use : UseSpans → Span
  | UseSpans.closure_use a _ => a
  | UseSpans.other_use s => s

def UseSpans.var_or_use : UseSpans → Span
  | UseSpans.closure_use _ v => v
  | UseSpans.other_use s => s

def UseSpans.args_span_label (u : UseSpans) (err : Diagnostic) (msg : String) :
    Diagnostic :=
  match u with
  | UseSpans.closure_use a _ => err.span_label a msg
  | UseSpans.other_use _ => err

def UseSpans.var_span_label (u : UseSpans) (err : Diagnostic) (msg : String) :
    Diagnostic :=
  match u with
  | UseSpans.closure_use _ v => err.span_label v msg
  | UseSpans.other_use _ => err

def UseSpans.for_closure : UseSpans → Bool
  | UseSpans.closure_use _ _ => true
  | UseSpans.other_use _ => false

def UseSpans.or_else (u : UseSpans) (if_other : Unit → UseSpans) : UseSpans :=
  match u with
  | UseSpans.closure_use a v => UseSpans.closure_use a v
  | UseSpans.other_use _ => if_other ()

/-- The freevar scan of `move_spans`: the first captured operand that
moves or copies exactly `moved_place` yields the freevar's span. -/
def find_closure_capture_span (moved_place : Place) :
    List (Freevar × Operand) → Option Span
  | [] => none
  | (v, Operand.copy p) :: rest =>
    if moved_place = p then some v.span
    else find_closure_capture_span moved_place rest
  | (v, Operand.move p) :: rest =>
    if moved_place = p then some v.span
    else find_closure_capture_span moved_place rest
  | (_, Operand.constant) :: rest => find_closure_capture_span moved_place rest

/-- The freevar scan of `borrow_spans`: the first captured operand that
is the bare local yields the freevar's span. -/
def find_closure_capture_span_local (l : Local) :
    List (Freevar × Operand) → Option Span
  | [] => none
  | (v, Operand.copy p) :: rest =>
    if PlaceBase.local_ l = p.base ∧ p.has_no_projection then some v.span
    else find_closure_capture_span_local l rest
  | (v, Operand.move p) :: rest =>
    if PlaceBase.local_ l = p.base ∧ p.has_no_projection then some v.span
    else find_closure_capture_span_local l rest
  | (_, Operand.constant) :: rest => find_closure_capture_span_local l rest

/-- `move_spans`: spans associated to a move or copy of `moved_place` at
`location`.  A closure-construction aggregate at the location that
captures `moved_place` yields the two-span `closure_use`; every other
case falls back to `other_use` of the statement's own span (or the
location's source info when the index is past the statements). -/
def move_spans (env : Env) (moved_place : Place) (location : Location) : UseSpans :=
  match (env.mir.blocks location.block).statements[location.statement_index]? with
  | none => UseSpans.other_use (env.mir.source_info location).span
  | some stmt =>
    match stmt.kind with
    | StatementKind.assign _ (Rvalue.aggregate (AggregateKind.closure def_id) places) =>
      (match env.as_local_node_id def_id with
       | some node_id =>
         (match env.closure_args_span node_id with
          | some args_span =>
            (match find_closure_capture_span moved_place
                ((env.freevars node_id).zip places) with
             | some var_span => UseSpans.closure_use args_span var_span
             | none => UseSpans.other_use stmt.source_info.span)
          | none => UseSpans.other_use stmt.source_info.span)
       | none => UseSpans.other_use stmt.source_info.span)
    | _ => UseSpans.other_use stmt.source_info.span

/-- The forward scan of `borrow_spans` over the statements following the
location: stops at the first closure-construction aggregate (returning
`closure_use` when it captures the local, `other_use` otherwise), and
breaks out as soon as a statement's span differs from `use_span`. -/
def borrow_spans_scan (env : Env) (use_span : Span) (l : Local) :
    List Statement → UseSpans
  | [] => UseSpans.other_use use_span
  | stmt :: rest =>
    match stmt.kind with
    | StatementKind.assign _ (Rvalue.aggregate (AggregateKind.closure def_id) places) =>
      (match env.as_local_node_id def_id with
       | some node_id =>
         (match env.closure_args_span node_id with
          | some args_span =>
            (match find_closure_capture_span_local l
                ((env.freevars node_id).zip places) with
             | some var_span => UseSpans.closure_use args_span var_span
             | none => UseSpans.other_use use_span)
          | none => UseSpans.other_use use_span)
       | none => UseSpans.other_use use_span)
    | _ =>
      if use_span ≠ stmt.source_info.span then UseSpans.other_use use_span
      else borrow_spans_scan env use_span l rest

/-- `borrow_spans`: requires the statement at `location` to assign to a
place rooted at a temporary local, then scans the following statements
of the block for a closure construction capturing that local; every
failure falls back to `other_use use_span`. -/
def borrow_spans (env : Env) (use_span : Span) (location : Location) : UseSpans :=
  match (env.mir.blocks location.block).statements[location.statement_index]? with
  | some { kind := StatementKind.assign { base := PlaceBase.local_ l, elems := _ } _,
           source_info := _ } =>
    if env.mir.local_kinds l ≠ LocalKind.temp then UseSpans.other_use use_span
    else
      borrow_spans_scan env use_span l
        ((env.mir.blocks location.block).statements.drop (location.statement_index + 1))
  | _ => UseSpans.other_use use_span

/-- A borrow record (`BorrowData`): kind, borrowed place, reservation
location. -/
inductive BorrowKind : Type where
  | shared
  | unique
  | mut (allow_two_phase_borrow : Bool)
deriving DecidableEq, Repr

structure BorrowData : Type where
  kind : BorrowKind
  borrowed_place : Place
  reserve_location : Location
deriving DecidableEq, Repr

/-- `retrieve_borrow_spans`. -/
def retrieve_borrow_spans (env : Env) (borrow : BorrowData) : UseSpans :=
  borrow_spans env (env.mir.source_info borrow.reserve_location).span
    borrow.reserve_location

/-- The `Context` handed to each reporting function; only its location is
read here. -/
structure Context : Type where
  loc : Location
deriving DecidableEq, Repr

/-- Modelled from the spec: the requested access kinds (§4.3 "a requested
access (read, move, mutate, reassign)"), carrying the noun and
past-tense verb the diagnostics interpolate. -/
inductive InitializationRequiringAction : Type where
  | read
  | move_access
  | mutate
  | reassign
deriving DecidableEq, Repr

def InitializationRequiringAction.as_noun : InitializationRequiringAction → String
  | InitializationRequiringAction.read => "read"
  | InitializationRequiringAction.move_access => "move"
  | InitializationRequiringAction.mutate => "mutate"
  | InitializationRequiringAction.reassign => "reassign"

def InitializationRequiringAction.as_verb_in_past_tense :
    InitializationRequiringAction → String
  | InitializationRequiringAction.read => "read"
  | InitializationRequiringAction.move_access => "moved"
  | InitializationRequiringAction.mutate => "mutated"
  | InitializationRequiringAction.reassign => "reassigned"

/-- The `WriteKind` argument threaded to the liveness explanation; its
content is never inspected by the embedded code. -/
abbrev WriteKind := Unit

/-- The mutable state of `MirBorrowckCtxt` that the reporting functions
touch: the two suppression sets and the diagnostics buffer (spec §3
"Suppression Records", §6 buffered diagnostics). -/
structure CkState : Type where
  moved_error_reported : List Place
  access_place_error_reported : List (Place × Span)
  errors_buffer : List Diagnostic
deriving DecidableEq, Repr

/-- Lines 136-148 of `report_use_of_moved_or_uninitialized`: the `Copy`
note is wanted unless the type is a closure with a recorded capture-kind
origin. -/
def needs_note_for (env : Env) : Ty → Bool
  | Ty.ty_closure id => if env.closure_kind_origin id then false else true
  | _ => true

/-- A display for types, standing in for `format!("{}", ty)` in the
`Copy` note (the real `Display` lives outside the embedded files). -/
def ty_display : Ty → String
  | Ty.ty_box t => "Box<" ++ ty_display t ++ ">"
  | Ty.ty_adt _ _ => "Adt"
  | Ty.ty_tuple => "(..)"
  | Ty.ty_ref t => "&" ++ ty_display t
  | Ty.ty_raw_ptr t => "*const " ++ ty_display t
  | Ty.ty_array t => "[" ++ ty_display t ++ "; N]"
  | Ty.ty_slice t => "[" ++ ty_display t ++ "]"
  | Ty.ty_closure _ => "[closure]"
  | Ty.ty_generator _ => "[generator]"
  | Ty.ty_other => "?"

/-- The per-move loop of lines 95-118: label each in-flight move, using
the loop-iteration phrasing when its span coincides with the new use's
span, and record whether any did. -/
def move_labels_loop (env : Env) (span : Span) :
    List MoveOutIndex → Diagnostic → Bool → Diagnostic × Bool
  | [], err, is_loop_move => (err, is_loop_move)
  | moi :: rest, err, is_loop_move =>
    let move_out := env.move_data.moves moi
    let moved_place := (env.move_data.move_paths move_out.path).place
    let mv_spans := move_spans env moved_place move_out.source
    let move_span := mv_spans.args_or_use
    let move_msg := if mv_spans.for_closure then " into closure" else ""
    if span = move_span then
      move_labels_loop env span rest
        (err.span_label span
          ("value moved" ++ move_msg ++ " here in previous iteration of loop"))
        true
    else
      let err2 := err.span_label move_span ("value moved" ++ move_msg ++ " here")
      move_labels_loop env span rest
        (mv_spans.var_span_label err2 "variable moved due to use in closure")
        is_loop_move

/-- Lines 135-169 of `report_use_of_moved_or_uninitialized`: attach the
`Copy` note when the used place's type is retrievable and wants a note
and the first recorded move's place has a retrievable type. -/
def copy_note_stage (env : Env) (place : Place) (moi0 : MoveOutIndex)
    (err : Diagnostic) : Diagnostic :=
  match retrieve_type_for_place env place with
  | some ty =>
    if needs_note_for env ty then
      let mpi2 := (env.move_data.moves moi0).path
      let place2 := (env.move_data.move_paths mpi2).place
      match retrieve_type_for_place env place2 with
      | some ty2 =>
        let note_msg :=
          match describe_place_with_options env place2 true with
          | some name => "`" ++ name ++ "`"
          | none => "value"
        err.note
          ("move occurs because " ++ note_msg ++ " has type `" ++
            ty_display ty2 ++ "`, which does not implement the `Copy` trait")
      | none => err
    else err
  | none => err

/-- `report_use_of_moved_or_uninitialized` (lines 32-173). -/
def report_use_of_moved_or_uninitialized (env : Env) (st : CkState)
    (context : Context) (desired_action : InitializationRequiringAction)
    (place : Place) (span0 : Span) (mpi : MovePathIndex)
    (curr_move_out : MoveOutIndex → Bool) : CkState :=
  let use_spans :=
    (move_spans env place context.loc).or_else
      (fun _ => borrow_spans env span0 context.loc)
  let span := use_spans.args_or_use
  let mois := (env.move_data.path_map mpi).filter (fun moi => curr_move_out moi)
  match mois with
  | [] =>
    let root_place := place.elem_base 0
    if root_place ∈ st.moved_error_reported then st
    else
      let st1 := { st with moved_error_reported := root_place :: st.moved_error_reported }
      let item_msg :=
        match describe_place_with_options env place true with
        | some name => "`" ++ name ++ "`"
        | none => "value"
      let err :=
        cannot_act_on_uninitialized_variable span desired_action.as_noun
          ((describe_place_with_options env place true).getD "_")
      let err := err.span_label span ("use of possibly uninitialized " ++ item_msg)
      let err :=
        use_spans.var_span_label err
          (desired_action.as_noun ++ " occurs due to use in closure")
      { st1 with errors_buffer := st1.errors_buffer ++ [err] }
  | moi0 :: rest =>
    let msg := ""
    let err :=
      cannot_act_on_moved_value span desired_action.as_noun msg
        (describe_place_with_options env place true)
    let looped := move_labels_loop env span (moi0 :: rest) err false
    let err := looped.1
    let is_loop_move := looped.2
    let err :=
      use_spans.var_span_label err
        (desired_action.as_noun ++ " occurs due to use in closure")
    let err :=
      if !is_loop_move then
        err.span_label span
          ("value " ++ desired_action.as_verb_in_past_tense ++ " here after move")
      else err
    let err := copy_note_stage env place moi0 err
    { st with errors_buffer := st.errors_buffer ++ [err] }

/-- `report_move_out_while_borrowed` (lines 175-211). -/
def report_move_out_while_borrowed (env : Env) (st : CkState) (context : Context)
    (place_span : Place × Span) (borrow : BorrowData) : CkState :=
  let place := place_span.1
  let value_msg :=
    match describe_place env place with
    | some name => "`" ++ name ++ "`"
    | none => "value"
  let borrow_msg :=
    match describe_place env borrow.borrowed_place with
    | some name => "`" ++ name ++ "`"
    | none => "value"
  let b_spans := retrieve_borrow_spans env borrow
  let borrow_span := b_spans.args_or_use
  let m_spans := move_spans env place context.loc
  let span := m_spans.args_or_use
  let err := cannot_move_when_borrowed span ((describe_place env place).getD "_")
  let err := err.span_label borrow_span ("borrow of " ++ borrow_msg ++ " occurs here")
  let err := err.span_label span ("move out of " ++ value_msg ++ " occurs here")
  let err := b_spans.var_span_label err "borrow occurs due to use in closure"
  let err := m_spans.var_span_label err "move occurs due to use in closure"
  let err := explain_why_borrow_contains_point env err
  { st with errors_buffer := st.errors_buffer ++ [err] }

/-- `report_use_while_mutably_borrowed` (lines 213-248).  Conflicting
borrows are reported separately, so only move captures are checked for
the use spans. -/
def report_use_while_mutably_borrowed (env : Env) (st : CkState)
    (context : Context) (place_span : Place × Span) (borrow : BorrowData) :
    CkState :=
  let place := place_span.1
  let b_spans := retrieve_borrow_spans env borrow
  let borrow_span := b_spans.args_or_use
  let use_spans2 := move_spans env place context.loc
  let span := use_spans2.var_or_use
  let err :=
    cannot_use_when_mutably_borrowed span ((describe_place env place).getD "_")
      borrow_span ((describe_place env borrow.borrowed_place).getD "_")
  let err :=
    b_spans.var_span_label err
      ("borrow occurs due to use of `" ++
        (describe_place env borrow.borrowed_place).getD "_" ++ "` in closure")
  let err := explain_why_borrow_contains_point env err
  { st with errors_buffer := st.errors_buffer ++ [err] }

/-- The sub-kind selection of `report_conflicting_borrow` (lines
267-346): the match over the requested and the issued borrow kinds.  The
source's single alternation arms are split per order, making the string
arguments (`lft`/`rgt`) explicit. -/
def report_conflicting_borrow_err (span : Span) (desc_place : String)
    (issued_span : Span) : BorrowKind → BorrowKind → Diagnostic
  | BorrowKind.shared, BorrowKind.mut _ =>
    cannot_reborrow_already_borrowed span desc_place "immutable" issued_span "mutable"
  | BorrowKind.mut _, BorrowKind.shared =>
    cannot_reborrow_already_borrowed span desc_place "mutable" issued_span "immutable"
  | BorrowKind.mut _, BorrowKind.mut _ =>
    cannot_mutably_borrow_multiply span desc_place issued_span
  | BorrowKind.unique, BorrowKind.unique =>
    cannot_uniquely_borrow_by_two_closures span desc_place issued_span
  | BorrowKind.unique, _ =>
    cannot_uniquely_borrow_by_one_closure span desc_place issued_span
  | BorrowKind.shared, BorrowKind.unique =>
    cannot_reborrow_already_uniquely_borrowed span desc_place "immutable" issued_span
  | BorrowKind.mut _, BorrowKind.unique =>
    cannot_reborrow_already_uniquely_borrowed span desc_place "mutable" issued_span
  | BorrowKind.shared, BorrowKind.shared => unreachable_diagnostic

/-- `report_conflicting_borrow` (lines 250-376). -/
def report_conflicting_borrow (env : Env) (st : CkState) (context : Context)
    (place_span : Place × Span) (gen_borrow_kind : BorrowKind)
    (issued_borrow : BorrowData) : CkState :=
  let place := place_span.1
  let issued_spans := retrieve_borrow_spans env issued_borrow
  let issued_span := issued_spans.args_or_use
  let b_spans := borrow_spans env place_span.2 context.loc
  let span := b_spans.args_or_use
  let desc_place := (describe_place env place).getD "_"
  let err :=
    report_conflicting_borrow_err span desc_place issued_span gen_borrow_kind
      issued_borrow.kind
  let err :=
    if issued_spans = b_spans then
      b_spans.var_span_label err
        ("borrows occur due to use of `" ++ desc_place ++ "` in closure")
    else
      b_spans.var_span_label
        (issued_spans.var_span_label err
          ("first borrow occurs due to use of `" ++
            (describe_place env issued_borrow.borrowed_place).getD "_" ++
            "` in closure"))
        ("second borrow occurs due to use of `" ++ desc_place ++ "` in closure")
  let err := explain_why_borrow_contains_point env err
  { st with errors_buffer := st.errors_buffer ++ [err] }

/-- `report_local_value_does_not_live_long_enough` (lines 438-467). -/
def report_local_value_does_not_live_long_enough (env : Env) (name : String)
    (drop_span : Span) (borrow_span : Span) : Diagnostic :=
  let err := path_does_not_live_long_enough borrow_span ("`" ++ name ++ "`")
  let err := err.span_label borrow_span "borrowed value does not live long enough"
  let err := err.span_label drop_span ("`" ++ name ++ "` dropped here while still borrowed")
  explain_why_borrow_contains_point env err

/-- `report_temporary_value_does_not_live_long_enough` (lines 469-493). -/
def report_temporary_value_does_not_live_long_enough (env : Env)
    (drop_span : Span) (proper_span : Span) : Diagnostic :=
  let err := path_does_not_live_long_enough proper_span "borrowed value"
  let err := err.span_label proper_span "temporary value does not live long enough"
  let err := err.span_label drop_span "temporary value only lives until here"
  explain_why_borrow_contains_point env err

/-- `report_borrowed_value_does_not_live_long_enough` (lines 378-436). -/
def report_borrowed_value_does_not_live_long_enough (env : Env) (st : CkState)
    (_context : Context) (borrow : BorrowData) (place_span : Place × Span)
    (_kind : Option WriteKind) : CkState :=
  let drop_span := place_span.2
  let root_place := borrow.borrowed_place.elem_base 0
  let b_spans := retrieve_borrow_spans env borrow
  let borrow_span := b_spans.var_or_use
  let proper_span :=
    match root_place.base with
    | PlaceBase.local_ l =>
      if root_place.has_no_projection then (env.mir.local_decls l).source_info.span
      else drop_span
    | _ => drop_span
  if (root_place, borrow_span) ∈ st.access_place_error_reported then st
  else
    let st1 :=
      { st with access_place_error_reported :=
          (root_place, borrow_span) :: st.access_place_error_reported }
    let err :=
      match describe_place env borrow.borrowed_place with
      | some name =>
        report_local_value_does_not_live_long_enough env name drop_span borrow_span
      | none =>
        report_temporary_value_does_not_live_long_enough env drop_span proper_span
    let err := b_spans.args_span_label err "value captured here"
    { st1 with errors_buffer := st1.errors_buffer ++ [err] }

/-- `report_illegal_mutation_of_borrowed` (lines 495-517). -/
def report_illegal_mutation_of_borrowed (env : Env) (st : CkState)
    (_context : Context) (place_span : Place × Span) (loan : BorrowData) : CkState :=
  let loan_spans := retrieve_borrow_spans env loan
  let loan_span := loan_spans.args_or_use
  let err :=
    cannot_assign_to_borrowed place_span.2 loan_span
      ((describe_place env place_span.1).getD "_")
  let err := loan_spans.var_span_label err "borrow occurs due to use in closure"
  let err := explain_why_borrow_contains_point env err
  { st with errors_buffer := st.errors_buffer ++ [err] }

/-- Lines 548-567 of `report_illegal_reassignment`: pick the description
and the blamed first-assignment span, special-casing a pattern-bound
user variable (its `opt_match_place` is set), whose declaration span is
blamed instead. -/
def reassignment_description_and_span (env : Env) (place : Place)
    (err_place : Place) (assigned_span : Span) :
    Option LocalDecl → Option String × Span
  | some ⟨_, _, _, some ClearCrossCrate.clear, _⟩ =>
    (describe_place env place, assigned_span)
  | some ⟨_, _, _, some (ClearCrossCrate.set (BindingForm.var ⟨none⟩)), _⟩ =>
    (describe_place env place, assigned_span)
  | some ⟨_, _, _, none, _⟩ => (describe_place env place, assigned_span)
  | none => (describe_place env place, assigned_span)
  | some decl => (describe_place env err_place, decl.source_info.span)

/-- Lines 589-598 of `report_illegal_reassignment`: attach the
"consider changing this to `mut <name>`" suggestion when the root's
declaration has a name and can be made mutable. -/
def reassignment_suggest_label (err : Diagnostic) :
    Option LocalDecl → Diagnostic
  | some ⟨some name, _, si, _, cbm⟩ =>
    if cbm then
      err.span_label si.span ("consider changing this to `mut " ++ name ++ "`")
    else err
  | some ⟨none, _, _, _, _⟩ => err
  | none => err

/-- Lines 548-601 of `report_illegal_reassignment`: everything after the
`from_arg`/`local_decl` computation, split out for reasoning. -/
def report_illegal_reassignment_finish (env : Env) (st : CkState) (place : Place)
    (span : Span) (assigned_span : Span) (err_place : Place) (from_arg : Bool)
    (local_decl : Option LocalDecl) : CkState :=
  let pd := reassignment_description_and_span env place err_place assigned_span local_decl
  let place_description := pd.1
  let assigned_span := pd.2
  let err := cannot_reassign_immutable span (place_description.getD "_") from_arg
  let msg :=
    if from_arg then "cannot assign to immutable argument"
    else "cannot assign twice to immutable variable"
  let err :=
    if span ≠ assigned_span then
      if !from_arg then
        err.span_label assigned_span
          ("first assignment to " ++
            (match place_description with
             | some name => "`" ++ name ++ "`"
             | none => "value"))
      else err
    else err
  let err := reassignment_suggest_label err local_decl
  let err := err.span_label span msg
  { st with errors_buffer := st.errors_buffer ++ [err] }

/-- `report_illegal_reassignment` (lines 525-601). -/
def report_illegal_reassignment (env : Env) (st : CkState) (_context : Context)
    (place_span : Place × Span) (assigned_span : Span) (err_place : Place) :
    CkState :=
  let place := place_span.1
  let span := place_span.2
  let from_arg_and_decl : Bool × Option LocalDecl :=
    match err_place.base with
    | PlaceBase.local_ l =>
      if err_place.has_no_projection then
        match env.mir.local_kinds l with
        | LocalKind.arg => (true, some (env.mir.local_decls l))
        | _ => (false, some (env.mir.local_decls l))
      else (false, none)
    | _ => (false, none)
  report_illegal_reassignment_finish env st place span assigned_span err_place
    from_arg_and_decl.1 from_arg_and_decl.2

/-- Modelled from the spec: the access-kind compatibility filter applied
before the detector is reached (§4.3 item 4: "shared+shared is never
conflicting (filtered out before reaching the detector); shared vs
mutable/unique, mutable vs mutable, unique vs unique/mutable/shared are
all conflicts"). -/
def borrows_conflict : BorrowKind → BorrowKind → Bool
  | BorrowKind.shared, BorrowKind.shared => false
  | _, _ => true

/-! ### Concrete environments used by counterexamples and witnesses -/

/-- A minimal MIR body: no statements, anonymous locals of tuple type. -/
def mir0 : Mir :=
  { blocks := fun _ => { statements := [], terminator_span := 0 },
    local_decls := fun _ =>
      { name := none, ty := Ty.ty_tuple, source_info := { span := 0 },
        is_user_variable := none, can_be_made_mutable := false },
    local_kinds := fun _ => LocalKind.var,
    upvar_decls := fun _ => { debug_name := "", by_ref := false } }

/-- A minimal compiler context over `mir0` with empty move data. -/
def env0 : Env :=
  { mir := mir0,
    move_data :=
      { path_map := fun _ => [],
        moves := fun _ => { path := 0, source := { block := 0, statement_index := 0 } },
        move_paths := fun _ => { place := { base := PlaceBase.local_ 0, elems := [] } } },
    item_name := fun _ => "S",
    as_local_node_id := fun _ => none,
    closure_args_span := fun _ => none,
    freevars := fun _ => [],
    closure_kind_origin := fun _ => false,
    is_upvar_field_projection := fun _ => none,
    explain_notes := [] }

/-- The empty reporting state: fresh suppression sets, empty buffer. -/
def st0 : CkState := { moved_error_reported := [], access_place_error_reported := [],
                       errors_buffer := [] }

/-! ### C10: totality and characterization of `root_local` -/

theorem root_local_nil (b : PlaceBase) :
    Place.root_local { base := b, elems := [] } =
      (match b with
       | PlaceBase.local_ l => some l
       | PlaceBase.static_ _ => none
       | PlaceBase.promoted _ => none) := by
  unfold Place.root_local
  cases b <;> simp [Place.split_projection]

theorem root_local_concat (b : PlaceBase) (es : List ProjectionElem)
    (e : ProjectionElem) :
    Place.root_local { base := b, elems := es ++ [e] } =
      Place.root_local { base := b, elems := es } := by
  conv_lhs => unfold Place.root_local
  split
  · next bp hp =>
      simp only [Place.split_projection, List.getLast?_concat,
        List.dropLast_concat] at hp
      injection hp with h1
      subst h1
      rfl
  · next hp =>
      simp only [Place.split_projection, List.getLast?_concat] at hp
      exact absurd hp (by simp)

theorem root_local_eq_base (p : Place) :
    p.root_local =
      (match p.base with
       | PlaceBase.local_ l => some l
       | PlaceBase.static_ _ => none
       | PlaceBase.promoted _ => none) := by
  obtain ⟨b, es⟩ := p
  induction es using List.reverseRecOn with
  | nil => exact root_local_nil b
  | append_singleton es e ih => rw [root_local_concat]; exact ih

/-- C10: root extraction is total (the definition's recursion strips one
projection per step and Lean accepts it as terminating), and
`root_local` returns `some l` exactly when the place's base is the local
`l`, `none` exactly when the base is a static or a promoted value. -/
theorem C10_root_local_total_and_correct (p : Place) :
    (∀ l, p.root_local = some l ↔ p.base = PlaceBase.local_ l) ∧
    (p.root_local = none ↔
      ((∃ s, p.base = PlaceBase.static_ s) ∨ (∃ pr, p.base = PlaceBase.promoted pr))) := by
  have h := root_local_eq_base p
  constructor
  · intro l
    rw [h]
    cases hb : p.base <;> simp
  · rw [h]
    cases hb : p.base <;> simp

/-! ### C9: the shared+shared arm is unreachable under the spec's filter -/

/-- C9: for every pair of borrow kinds that the spec's compatibility
filter lets through to the detector (everything except shared+shared),
the sub-kind selection of `report_conflicting_borrow` never lands in the
`unreachable!()` shared/shared arm. -/
theorem C9_shared_shared_arm_unreachable (span : Span) (desc_place : String)
    (issued_span : Span) (g i : BorrowKind)
    (h : borrows_conflict g i = true) :
    (report_conflicting_borrow_err span desc_place issued_span g i).ctor ≠
      ErrCtor.unreachable_shared_shared := by
  cases g <;> cases i <;>
    simp_all [borrows_conflict, report_conflicting_borrow_err,
      cannot_reborrow_already_borrowed, cannot_mutably_borrow_multiply,
      cannot_uniquely_borrow_by_two_closures, cannot_uniquely_borrow_by_one_closure,
      cannot_reborrow_already_uniquely_borrowed, unreachable_diagnostic]

/-- Witness for C9 at a concrete conflicting pair. -/
theorem C9_witness :
    borrows_conflict (BorrowKind.mut false) BorrowKind.shared = true ∧
    (report_conflicting_borrow_err 0 "x" 1 (BorrowKind.mut false)
        BorrowKind.shared).ctor ≠ ErrCtor.unreachable_shared_shared :=
  ⟨by decide, C9_shared_shared_arm_unreachable 0 "x" 1 _ _ (by decide)⟩

/-! ### C2: symmetry of the conflict sub-kind selection -/

def BorrowKind.is_unique : BorrowKind → Bool
  | BorrowKind.unique => true
  | _ => false

/-- C2 counterexample: requesting a unique borrow against an issued
shared borrow selects `cannot_uniquely_borrow_by_one_closure`, while the
swapped order selects `cannot_reborrow_already_uniquely_borrowed` — the
claim's order-independence fails for unique-vs-shared (both kinds drawn
from {shared, unique, mutable} and not both shared). -/
theorem C2_counterexample :
    (report_conflicting_borrow env0 st0 { loc := { block := 0, statement_index := 0 } }
        ({ base := PlaceBase.local_ 1, elems := [] }, 0) BorrowKind.unique
        { kind := BorrowKind.shared,
          borrowed_place := { base := PlaceBase.local_ 1, elems := [] },
          reserve_location := { block := 0, statement_index := 0 } }).errors_buffer.map
        Diagnostic.ctor ≠
      (report_conflicting_borrow env0 st0 { loc := { block := 0, statement_index := 0 } }
          ({ base := PlaceBase.local_ 1, elems := [] }, 0) BorrowKind.shared
          { kind := BorrowKind.unique,
            borrowed_place := { base := PlaceBase.local_ 1, elems := [] },
            reserve_location := { block := 0, statement_index := 0 } }).errors_buffer.map
          Diagnostic.ctor := by decide

/-- C2 as amended: the sub-kind selection is order-independent for every
admissible pair in which the closure-unique kind appears on both sides
or on neither — i.e. the original claim restricted away from the
unique-vs-shared and unique-vs-mutable pairs exhibited above. -/
theorem C2_amended_matrix_symmetry (span : Span) (desc_place : String)
    (issued_span : Span) (g i : BorrowKind)
    (h1 : ¬(g = BorrowKind.shared ∧ i = BorrowKind.shared))
    (h2 : g.is_unique = i.is_unique) :
    (report_conflicting_borrow_err span desc_place issued_span g i).ctor =
      (report_conflicting_borrow_err span desc_place issued_span i g).ctor := by
  cases g <;> cases i <;>
    simp_all [BorrowKind.is_unique, report_conflicting_borrow_err,
      cannot_reborrow_already_borrowed, cannot_mutably_borrow_multiply,
      cannot_uniquely_borrow_by_two_closures, cannot_uniquely_borrow_by_one_closure,
      cannot_reborrow_already_uniquely_borrowed, unreachable_diagnostic]

/-- Witness for the amended C2 at the mutable/shared pair. -/
theorem C2_amended_witness :
    (¬((BorrowKind.mut false) = BorrowKind.shared ∧ BorrowKind.shared = BorrowKind.shared)) ∧
    (report_conflicting_borrow_err 0 "p" 1 (BorrowKind.mut false) BorrowKind.shared).ctor =
      (report_conflicting_borrow_err 0 "p" 1 BorrowKind.shared (BorrowKind.mut false)).ctor :=
  ⟨by decide, C2_amended_matrix_symmetry 0 "p" 1 _ _ (by decide) (by decide)⟩

/-! ### C1: the move-suppression set only guards the uninitialized branch -/

/-- Move data with a single in-flight move of local `_1`. -/
def envC1 : Env :=
  { env0 with
    move_data :=
      { path_map := fun _ => [0],
        moves := fun _ => { path := 0, source := { block := 0, statement_index := 0 } },
        move_paths := fun _ => { place := { base := PlaceBase.local_ 1, elems := [] } } } }

/-- A state in which the root of local `_1` is already recorded in the
move-suppression set. -/
def stC1 : CkState :=
  { moved_error_reported := [{ base := PlaceBase.local_ 1, elems := [] }],
    access_place_error_reported := [], errors_buffer := [] }

/-- C1 counterexample: the root of the reported place is already in the
per-body move-suppression set, the location has a recorded in-flight
move (`mois` nonempty, the genuine use-of-moved case), and the function
nevertheless buffers a diagnostic — it neither returns early nor records
the root, contradicting the claim that it "returns without buffering a
diagnostic when the root is already recorded". -/
theorem C1_counterexample :
    ({ base := PlaceBase.local_ 1, elems := [] } : Place).elem_base 0 ∈
        stC1.moved_error_reported ∧
    (report_use_of_moved_or_uninitialized envC1 stC1
          { loc := { block := 0, statement_index := 0 } }
          InitializationRequiringAction.read
          { base := PlaceBase.local_ 1, elems := [] } 0 0
          (fun _ => true)).errors_buffer.length = 1 := by decide

/-- C1 as amended: the suppression set keyed by the root guards only the
uninitialized branch — when no recorded move of the path is in flight at
the location, the function returns unchanged if the root is recorded and
otherwise records the root and buffers one diagnostic; when recorded
moves exist it always buffers one diagnostic, neither consulting nor
updating the set (and it never touches the other suppression set). -/
theorem C1_amended_suppression_only_uninitialized (env : Env) (st : CkState)
    (context : Context) (desired_action : InitializationRequiringAction)
    (place : Place) (span0 : Span) (mpi : MovePathIndex)
    (curr_move_out : MoveOutIndex → Bool) :
    ((env.move_data.path_map mpi).filter (fun moi => curr_move_out moi) = [] ∧
        place.elem_base 0 ∈ st.moved_error_reported →
      report_use_of_moved_or_uninitialized env st context desired_action place
        span0 mpi curr_move_out = st) ∧
    (¬((env.move_data.path_map mpi).filter (fun moi => curr_move_out moi) = [] ∧
        place.elem_base 0 ∈ st.moved_error_reported) →
      ∃ d, (report_use_of_moved_or_uninitialized env st context desired_action place
          span0 mpi curr_move_out).errors_buffer = st.errors_buffer ++ [d]) ∧
    ((report_use_of_moved_or_uninitialized env st context desired_action place
        span0 mpi curr_move_out).moved_error_reported =
      if (env.move_data.path_map mpi).filter (fun moi => curr_move_out moi) = [] ∧
          place.elem_base 0 ∉ st.moved_error_reported
        then place.elem_base 0 :: st.moved_error_reported
        else st.moved_error_reported) ∧
    ((report_use_of_moved_or_uninitialized env st context desired_action place
        span0 mpi curr_move_out).access_place_error_reported =
      st.access_place_error_reported) := by
  unfold report_use_of_moved_or_uninitialized
  cases hm : (env.move_data.path_map mpi).filter (fun moi => curr_move_out moi) with
  | nil =>
    by_cases hr : place.elem_base 0 ∈ st.moved_error_reported
    · simp [hm, hr]
    · simp [hm, hr]
  | cons moi0 rest =>
    refine ⟨by simp [hm], fun _ => ?_, by simp [hm], by simp [hm]⟩
    simp only [hm]
    exact ⟨_, rfl⟩

/-- Witness for the amended C1: suppression fires in the uninitialized
branch. -/
theorem C1_amended_witness :
    ((env0.move_data.path_map 0).filter (fun moi => (fun _ => true) moi) = [] ∧
      ({ base := PlaceBase.local_ 1, elems := [] } : Place).elem_base 0 ∈
        stC1.moved_error_reported) ∧
    report_use_of_moved_or_uninitialized env0 stC1
        { loc := { block := 0, statement_index := 0 } }
        InitializationRequiringAction.read
        { base := PlaceBase.local_ 1, elems := [] } 0 0 (fun _ => true) = stC1 :=
  ⟨by decide,
    (C1_amended_suppression_only_uninitialized env0 stC1
        { loc := { block := 0, statement_index := 0 } }
        InitializationRequiringAction.read
        { base := PlaceBase.local_ 1, elems := [] } 0 0 (fun _ => true)).1
      (by decide)⟩

/-! ### C3: per-(root, blame-span) suppression of BorrowTooShort -/

/-- C3: `report_borrowed_value_does_not_live_long_enough` returns the
state unchanged when the (root place, blame span) pair is already in the
second suppression set, and otherwise inserts the pair and buffers
exactly one diagnostic (leaving the move-suppression set untouched). -/
theorem C3_borrow_too_short_suppression (env : Env) (st : CkState)
    (context : Context) (borrow : BorrowData) (place_span : Place × Span)
    (kind : Option WriteKind) :
    ((borrow.borrowed_place.elem_base 0,
        (retrieve_borrow_spans env borrow).var_or_use) ∈
          st.access_place_error_reported →
      report_borrowed_value_does_not_live_long_enough env st context borrow
        place_span kind = st) ∧
    ((borrow.borrowed_place.elem_base 0,
        (retrieve_borrow_spans env borrow).var_or_use) ∉
          st.access_place_error_reported →
      ∃ d, (report_borrowed_value_does_not_live_long_enough env st context borrow
            place_span kind).errors_buffer = st.errors_buffer ++ [d] ∧
        (report_borrowed_value_does_not_live_long_enough env st context borrow
            place_span kind).access_place_error_reported =
          (borrow.borrowed_place.elem_base 0,
            (retrieve_borrow_spans env borrow).var_or_use) ::
            st.access_place_error_reported ∧
        (report_borrowed_value_does_not_live_long_enough env st context borrow
            place_span kind).moved_error_reported = st.moved_error_reported) := by
  unfold report_borrowed_value_does_not_live_long_enough
  by_cases hr : (borrow.borrowed_place.elem_base 0,
      (retrieve_borrow_spans env borrow).var_or_use) ∈ st.access_place_error_reported
  · simp [hr]
  · refine ⟨fun hc => absurd hc hr, fun _ => ?_⟩
    rw [if_neg hr]
    exact ⟨_, rfl, rfl, rfl⟩

/-- Witness for C3: a fresh pair is inserted and one diagnostic
buffered. -/
theorem C3_witness :
    (({ base := PlaceBase.local_ 1, elems := [] } : Place).elem_base 0,
        (retrieve_borrow_spans env0
          { kind := BorrowKind.shared,
            borrowed_place := { base := PlaceBase.local_ 1, elems := [] },
            reserve_location := { block := 0, statement_index := 0 } }).var_or_use) ∉
      st0.access_place_error_reported ∧
    ∃ d, (report_borrowed_value_does_not_live_long_enough env0 st0
          { loc := { block := 0, statement_index := 0 } }
          { kind := BorrowKind.shared,
            borrowed_place := { base := PlaceBase.local_ 1, elems := [] },
            reserve_location := { block := 0, statement_index := 0 } }
          ({ base := PlaceBase.local_ 2, elems := [] }, 5) none).errors_buffer =
        st0.errors_buffer ++ [d] :=
  ⟨by decide, by
    obtain ⟨d, hd, -, -⟩ :=
      (C3_borrow_too_short_suppression env0 st0
          { loc := { block := 0, statement_index := 0 } }
          { kind := BorrowKind.shared,
            borrowed_place := { base := PlaceBase.local_ 1, elems := [] },
            reserve_location := { block := 0, statement_index := 0 } }
          ({ base := PlaceBase.local_ 2, elems := [] }, 5) none).2 (by decide)
    exact ⟨d, hd⟩⟩

/-! ### Structural lemmas about diagnostic assembly -/

theorem span_label_desc (d : Diagnostic) (sp : Span) (msg : String) :
    (d.span_label sp msg).desc = d.desc := rfl

theorem span_label_labels (d : Diagnostic) (sp : Span) (msg : String) :
    (d.span_label sp msg).labels = d.labels ++ [(sp, msg)] := rfl

theorem note_labels (d : Diagnostic) (msg : String) :
    (d.note msg).labels = d.labels := rfl

theorem explain_labels (env : Env) (d : Diagnostic) :
    (explain_why_borrow_contains_point env d).labels = d.labels := rfl

theorem explain_desc (env : Env) (d : Diagnostic) :
    (explain_why_borrow_contains_point env d).desc = d.desc := rfl

theorem var_span_label_desc (u : UseSpans) (d : Diagnostic) (msg : String) :
    (u.var_span_label d msg).desc = d.desc := by
  cases u <;> rfl

theorem args_span_label_desc (u : UseSpans) (d : Diagnostic) (msg : String) :
    (u.args_span_label d msg).desc = d.desc := by
  cases u <;> rfl

theorem mem_var_span_label (u : UseSpans) (d : Diagnostic) (msg : String)
    {x : Span × String} (h : x ∈ d.labels) : x ∈ (u.var_span_label d msg).labels := by
  cases u with
  | closure_use a v =>
    simp only [UseSpans.var_span_label, Diagnostic.span_label, List.mem_append]
    exact Or.inl h
  | other_use s => exact h

theorem var_span_label_labels_cases (u : UseSpans) (d : Diagnostic) (msg : String) :
    (u.var_span_label d msg).labels = d.labels ∨
      ∃ v, (u.var_span_label d msg).labels = d.labels ++ [(v, msg)] := by
  cases u with
  | closure_use a v => exact Or.inr ⟨v, rfl⟩
  | other_use s => exact Or.inl rfl

/-! ### C8: descriptions degrade gracefully, never fail -/

theorem mem_args_span_label (u : UseSpans) (d : Diagnostic) (msg : String)
    {x : Span × String} (h : x ∈ d.labels) : x ∈ (u.args_span_label d msg).labels := by
  cases u with
  | closure_use a v =>
    simp only [UseSpans.args_span_label, Diagnostic.span_label, List.mem_append]
    exact Or.inl h
  | other_use s => exact h

theorem mem_snd_of_mem (x : Span × String) (l : List (Span × String))
    (h : x ∈ l) : x.2 ∈ l.map Prod.snd :=
  List.mem_map_of_mem _ h

theorem reassignment_suggest_label_desc (d : Diagnostic) (ld : Option LocalDecl) :
    (reassignment_suggest_label d ld).desc = d.desc := by
  cases ld with
  | none => rfl
  | some decl =>
    obtain ⟨dn, dt, ds, diuv, dc⟩ := decl
    cases dn with
    | none => rfl
    | some name =>
      cases dc with
      | true => rfl
      | false => rfl

theorem reassignment_description_cases (env : Env) (place err_place : Place)
    (assigned_span : Span) (ld : Option LocalDecl) :
    (reassignment_description_and_span env place err_place assigned_span ld).1 =
        describe_place env place ∨
      (reassignment_description_and_span env place err_place assigned_span ld).1 =
        describe_place env err_place := by
  cases ld with
  | none => exact Or.inl rfl
  | some decl =>
    obtain ⟨dn, dt, ds, diuv, dc⟩ := decl
    cases diuv with
    | none => exact Or.inl rfl
    | some cc =>
      cases cc with
      | clear => exact Or.inl rfl
      | set bf =>
        cases bf with
        | implicit_self => exact Or.inr rfl
        | var vbf =>
          obtain ⟨omp⟩ := vbf
          cases omp with
          | none => exact Or.inl rfl
          | some pr => exact Or.inr rfl

theorem reassignment_description_none (env : Env) (place err_place : Place)
    (assigned_span : Span) (ld : Option LocalDecl)
    (h1 : describe_place env place = none)
    (h2 : describe_place env err_place = none) :
    (reassignment_description_and_span env place err_place assigned_span ld).1 =
      none := by
  rcases reassignment_description_cases env place err_place assigned_span ld with
    h | h
  · rw [h, h1]
  · rw [h, h2]

theorem reassignment_if_stage_desc (c1 : Prop) [inst : Decidable c1] (b : Bool)
    (e : Diagnostic) (sp : Span) (m : String) :
    (if c1 then (if b then e.span_label sp m else e) else e).desc = e.desc := by
  by_cases h : c1
  · cases b with
    | true => rw [if_pos h]; simp [span_label_desc]
    | false => rw [if_pos h]; simp
  · rw [if_neg h]

theorem conflicting_if_stage_desc (c : Prop) [inst : Decidable c]
    (u1 u2 u3 : UseSpans) (e : Diagnostic) (m1 m2 m3 : String) :
    (if c then u1.var_span_label e m1
     else u3.var_span_label (u2.var_span_label e m2) m3).desc = e.desc := by
  by_cases h : c
  · rw [if_pos h, var_span_label_desc]
  · rw [if_neg h, var_span_label_desc, var_span_label_desc]

/-- C8: (i) under the well-typedness precondition,
`describe_field_from_ty` always produces a string, never reaching the
modelled `bug!`/indexing aborts; (ii)-(viii) every reporting function of
the file buffers a well-formed diagnostic and substitutes the fallback
`"_"` or `"value"` (or, for the does-not-live-long-enough report, the
"borrowed value"/"temporary value" phrasing) when `describe_place` has
no name for the relevant place: `report_move_out_while_borrowed`,
`report_use_of_moved_or_uninitialized` (uninitialized branch),
`report_use_while_mutably_borrowed`, `report_conflicting_borrow`,
`report_borrowed_value_does_not_live_long_enough`,
`report_illegal_mutation_of_borrowed`, `report_illegal_reassignment`. -/
theorem C8_description_never_fails :
    (∀ env ty f, field_well_typed env ty f = true →
      (describe_field_from_ty env ty f).isSome = true) ∧
    (∀ env st context place span borrow,
      ∃ d, (report_move_out_while_borrowed env st context (place, span)
            borrow).errors_buffer = st.errors_buffer ++ [d] ∧
        (describe_place env place = none →
          d.desc = ["_"] ∧
            ∃ sp, (sp, "move out of value occurs here") ∈ d.labels)) ∧
    (∀ env st context desired_action place span0 mpi curr_move_out,
      (env.move_data.path_map mpi).filter (fun moi => curr_move_out moi) = [] →
      place.elem_base 0 ∉ st.moved_error_reported →
      describe_place_with_options env place true = none →
      ∃ d, (report_use_of_moved_or_uninitialized env st context desired_action
            place span0 mpi curr_move_out).errors_buffer =
          st.errors_buffer ++ [d] ∧
        d.desc = [desired_action.as_noun, "_"] ∧
        "use of possibly uninitialized value" ∈ d.labels.map Prod.snd) ∧
    (∀ env st context place span borrow,
      ∃ d, (report_use_while_mutably_borrowed env st context (place, span)
            borrow).errors_buffer = st.errors_buffer ++ [d] ∧
        (describe_place env place = none →
          describe_place env borrow.borrowed_place = none →
          d.desc = ["_",
            toString (retrieve_borrow_spans env borrow).args_or_use, "_"])) ∧
    (∀ env st context place span gen_borrow_kind issued_borrow,
      ∃ d, (report_conflicting_borrow env st context (place, span)
            gen_borrow_kind issued_borrow).errors_buffer =
          st.errors_buffer ++ [d] ∧
        (describe_place env place = none →
          borrows_conflict gen_borrow_kind issued_borrow.kind = true →
          "_" ∈ d.desc)) ∧
    (∀ env st context borrow place_span kind,
      (borrow.borrowed_place.elem_base 0,
          (retrieve_borrow_spans env borrow).var_or_use) ∉
        st.access_place_error_reported →
      describe_place env borrow.borrowed_place = none →
      ∃ d, (report_borrowed_value_does_not_live_long_enough env st context
            borrow place_span kind).errors_buffer = st.errors_buffer ++ [d] ∧
        d.desc = ["borrowed value"] ∧
        "temporary value does not live long enough" ∈ d.labels.map Prod.snd) ∧
    (∀ env st context place span loan,
      ∃ d, (report_illegal_mutation_of_borrowed env st context (place, span)
            loan).errors_buffer = st.errors_buffer ++ [d] ∧
        (describe_place env place = none →
          d.desc = [toString (retrieve_borrow_spans env loan).args_or_use, "_"])) ∧
    (∀ env st context place span assigned_span err_place,
      ∃ d, (report_illegal_reassignment env st context (place, span)
            assigned_span err_place).errors_buffer = st.errors_buffer ++ [d] ∧
        (describe_place env place = none →
          describe_place env err_place = none →
          "_" ∈ d.desc)) := by
  refine ⟨?_, ?_, ?_, ?_, ?_, ?_, ?_, ?_⟩
  · intro env ty f
    induction ty with
    | ty_box t ih =>
      intro h
      simp only [field_well_typed] at h
      simp only [describe_field_from_ty]
      exact ih h
    | ty_adt is_enum field_idents =>
      intro h
      simp only [field_well_typed] at h
      simp only [describe_field_from_ty]
      cases is_enum with
      | true => simp
      | false =>
        simp only [Bool.false_or, decide_eq_true_eq] at h
        simp
        cases hg : field_idents[f]? with
        | some id => simp [hg]
        | none =>
          have := List.getElem?_eq_none_iff.mp hg
          exact absurd h (Nat.not_lt.mpr this)
    | ty_tuple => intro h; simp [describe_field_from_ty]
    | ty_ref t ih =>
      intro h
      simp only [field_well_typed] at h
      simp only [describe_field_from_ty]
      exact ih h
    | ty_raw_ptr t ih =>
      intro h
      simp only [field_well_typed] at h
      simp only [describe_field_from_ty]
      exact ih h
    | ty_array t ih =>
      intro h
      simp only [field_well_typed] at h
      simp only [describe_field_from_ty]
      exact ih h
    | ty_slice t ih =>
      intro h
      simp only [field_well_typed] at h
      simp only [describe_field_from_ty]
      exact ih h
    | ty_closure def_id =>
      intro h
      simp only [field_well_typed] at h
      simp only [describe_field_from_ty]
      cases han : env.as_local_node_id def_id with
      | none => rw [han] at h; simp at h
      | some node_id =>
        rw [han] at h
        simp only [decide_eq_true_eq] at h
        simp
        cases hg : (env.freevars node_id)[f]? with
        | some fv => simp [hg]
        | none =>
          have := List.getElem?_eq_none_iff.mp hg
          exact absurd h (Nat.not_lt.mpr this)
    | ty_generator def_id =>
      intro h
      simp only [field_well_typed] at h
      simp only [describe_field_from_ty]
      cases han : env.as_local_node_id def_id with
      | none => rw [han] at h; simp at h
      | some node_id =>
        rw [han] at h
        simp only [decide_eq_true_eq] at h
        simp
        cases hg : (env.freevars node_id)[f]? with
        | some fv => simp [hg]
        | none =>
          have := List.getElem?_eq_none_iff.mp hg
          exact absurd h (Nat.not_lt.mpr this)
    | ty_other => intro h; simp [field_well_typed] at h
  · intro env st context place span borrow
    refine ⟨_, rfl, fun hnone => ?_⟩
    constructor
    · rw [explain_desc, var_span_label_desc, var_span_label_desc, span_label_desc,
        span_label_desc]
      simp [cannot_move_when_borrowed, hnone]
    · refine ⟨(move_spans env place context.loc).args_or_use, ?_⟩
      rw [explain_labels]
      apply mem_var_span_label
      apply mem_var_span_label
      rw [span_label_labels, span_label_labels]
      have hv : (match describe_place env place with
          | some name => "`" ++ name ++ "`"
          | none => "value") = "value" := by rw [hnone]
      rw [hv]
      simp
  · intro env st context desired_action place span0 mpi curr_move_out hm hroot hnone
    unfold report_use_of_moved_or_uninitialized
    simp only [hm]
    rw [if_neg hroot]
    refine ⟨_, rfl, ?_, ?_⟩
    · rw [var_span_label_desc, span_label_desc]
      simp [cannot_act_on_uninitialized_variable, hnone]
    · refine mem_snd_of_mem
        (((move_spans env place context.loc).or_else
          (fun _ => borrow_spans env span0 context.loc)).args_or_use,
          "use of possibly uninitialized value") _ ?_
      apply mem_var_span_label
      rw [span_label_labels]
      have hv : (match describe_place_with_options env place true with
          | some name => "`" ++ name ++ "`"
          | none => "value") = "value" := by rw [hnone]
      rw [hv]
      simp [cannot_act_on_uninitialized_variable]
  · intro env st context place span borrow
    refine ⟨_, rfl, fun h1 h2 => ?_⟩
    rw [explain_desc, var_span_label_desc]
    simp [cannot_use_when_mutably_borrowed, h1, h2]
  · intro env st context place span gen_borrow_kind issued_borrow
    obtain ⟨ik, ibp, irl⟩ := issued_borrow
    refine ⟨_, rfl, fun h1 h2 => ?_⟩
    rw [explain_desc, conflicting_if_stage_desc]
    cases gen_borrow_kind <;> cases ik <;>
      simp_all [report_conflicting_borrow_err, borrows_conflict,
        cannot_reborrow_already_borrowed, cannot_mutably_borrow_multiply,
        cannot_uniquely_borrow_by_two_closures,
        cannot_uniquely_borrow_by_one_closure,
        cannot_reborrow_already_uniquely_borrowed]
  · intro env st context borrow place_span kind hpair hnone
    unfold report_borrowed_value_does_not_live_long_enough
    rw [if_neg hpair]
    rw [hnone]
    refine ⟨_, rfl, ?_, ?_⟩
    · rw [args_span_label_desc]
      simp [report_temporary_value_does_not_live_long_enough,
        explain_why_borrow_contains_point, Diagnostic.span_label,
        path_does_not_live_long_enough]
    · cases hbs : retrieve_borrow_spans env borrow with
      | closure_use a v =>
        simp [UseSpans.args_span_label, Diagnostic.span_label,
          report_temporary_value_does_not_live_long_enough,
          explain_why_borrow_contains_point, path_does_not_live_long_enough]
      | other_use s0 =>
        simp [UseSpans.args_span_label, Diagnostic.span_label,
          report_temporary_value_does_not_live_long_enough,
          explain_why_borrow_contains_point, path_does_not_live_long_enough]
  · intro env st context place span loan
    refine ⟨_, rfl, fun h => ?_⟩
    rw [explain_desc, var_span_label_desc]
    simp [cannot_assign_to_borrowed, h]
  · intro env st context place span assigned_span err_place
    refine ⟨_, rfl, fun h1 h2 => ?_⟩
    rw [span_label_desc, reassignment_suggest_label_desc, reassignment_if_stage_desc,
      reassignment_description_none env place err_place assigned_span _ h1 h2]
    simp [cannot_reassign_immutable]

/-- Witness for C8: a struct field description succeeds under
well-typedness, and over a body of unnamed locals every reporting
function buffers a diagnostic with the fallback text. -/
theorem C8_witness :
    (field_well_typed env0 (Ty.ty_adt false ["fld"]) 0 = true ∧
      (describe_field_from_ty env0 (Ty.ty_adt false ["fld"]) 0).isSome = true) ∧
    (describe_place env0 { base := PlaceBase.local_ 9, elems := [] } = none ∧
      ∃ d, (report_move_out_while_borrowed env0 st0
            { loc := { block := 0, statement_index := 0 } }
            ({ base := PlaceBase.local_ 9, elems := [] }, 0)
            { kind := BorrowKind.shared,
              borrowed_place := { base := PlaceBase.local_ 1, elems := [] },
              reserve_location := { block := 0, statement_index := 0 } }).errors_buffer =
          st0.errors_buffer ++ [d] ∧ d.desc = ["_"] ∧
          ∃ sp, (sp, "move out of value occurs here") ∈ d.labels) ∧
    (∃ d, (report_use_of_moved_or_uninitialized env0 st0
          { loc := { block := 0, statement_index := 0 } }
          InitializationRequiringAction.read
          { base := PlaceBase.local_ 9, elems := [] } 0 0
          (fun _ => true)).errors_buffer = st0.errors_buffer ++ [d] ∧
      d.desc = ["read", "_"] ∧
      "use of possibly uninitialized value" ∈ d.labels.map Prod.snd) ∧
    (∃ d, (report_use_while_mutably_borrowed env0 st0
          { loc := { block := 0, statement_index := 0 } }
          ({ base := PlaceBase.local_ 9, elems := [] }, 0)
          { kind := BorrowKind.shared,
            borrowed_place := { base := PlaceBase.local_ 1, elems := [] },
            reserve_location := { block := 0, statement_index := 0 } }).errors_buffer =
        st0.errors_buffer ++ [d] ∧ d.desc = ["_", "0", "_"]) ∧
    (∃ d, (report_conflicting_borrow env0 st0
          { loc := { block := 0, statement_index := 0 } }
          ({ base := PlaceBase.local_ 9, elems := [] }, 0) (BorrowKind.mut false)
          { kind := BorrowKind.shared,
            borrowed_place := { base := PlaceBase.local_ 1, elems := [] },
            reserve_location := { block := 0, statement_index := 0 } }).errors_buffer =
        st0.errors_buffer ++ [d] ∧ "_" ∈ d.desc) ∧
    (∃ d, (report_borrowed_value_does_not_live_long_enough env0 st0
          { loc := { block := 0, statement_index := 0 } }
          { kind := BorrowKind.shared,
            borrowed_place := { base := PlaceBase.local_ 1, elems := [] },
            reserve_location := { block := 0, statement_index := 0 } }
          ({ base := PlaceBase.local_ 9, elems := [] }, 5) none).errors_buffer =
        st0.errors_buffer ++ [d] ∧ d.desc = ["borrowed value"] ∧
      "temporary value does not live long enough" ∈ d.labels.map Prod.snd) ∧
    (∃ d, (report_illegal_mutation_of_borrowed env0 st0
          { loc := { block := 0, statement_index := 0 } }
          ({ base := PlaceBase.local_ 9, elems := [] }, 0)
          { kind := BorrowKind.shared,
            borrowed_place := { base := PlaceBase.local_ 1, elems := [] },
            reserve_location := { block := 0, statement_index := 0 } }).errors_buffer =
        st0.errors_buffer ++ [d] ∧ d.desc = ["0", "_"]) ∧
    (∃ d, (report_illegal_reassignment env0 st0
          { loc := { block := 0, statement_index := 0 } }
          ({ base := PlaceBase.local_ 9, elems := [] }, 1) 2
          { base := PlaceBase.local_ 9, elems := [] }).errors_buffer =
        st0.errors_buffer ++ [d] ∧ "_" ∈ d.desc) := by
  obtain ⟨hf, hmo, hun, hum, hcb, hbt, him, hra⟩ := C8_description_never_fails
  refine ⟨⟨by decide, hf env0 _ 0 (by decide)⟩, ⟨by decide, ?_⟩, ?_, ?_, ?_, ?_, ?_, ?_⟩
  · obtain ⟨d, hd, himp⟩ :=
      hmo env0 st0 { loc := { block := 0, statement_index := 0 } }
        { base := PlaceBase.local_ 9, elems := [] } 0
        { kind := BorrowKind.shared,
          borrowed_place := { base := PlaceBase.local_ 1, elems := [] },
          reserve_location := { block := 0, statement_index := 0 } }
    obtain ⟨h1, h2⟩ := himp (by decide)
    exact ⟨d, hd, h1, h2⟩
  · exact hun env0 st0 { loc := { block := 0, statement_index := 0 } }
      InitializationRequiringAction.read { base := PlaceBase.local_ 9, elems := [] }
      0 0 (fun _ => true) (by decide) (by decide) (by decide)
  · obtain ⟨d, hd, himp⟩ :=
      hum env0 st0 { loc := { block := 0, statement_index := 0 } }
        { base := PlaceBase.local_ 9, elems := [] } 0
        { kind := BorrowKind.shared,
          borrowed_place := { base := PlaceBase.local_ 1, elems := [] },
          reserve_location := { block := 0, statement_index := 0 } }
    exact ⟨d, hd, himp (by decide) (by decide)⟩
  · obtain ⟨d, hd, himp⟩ :=
      hcb env0 st0 { loc := { block := 0, statement_index := 0 } }
        { base := PlaceBase.local_ 9, elems := [] } 0 (BorrowKind.mut false)
        { kind := BorrowKind.shared,
          borrowed_place := { base := PlaceBase.local_ 1, elems := [] },
          reserve_location := { block := 0, statement_index := 0 } }
    exact ⟨d, hd, himp (by decide) (by decide)⟩
  · exact hbt env0 st0 { loc := { block := 0, statement_index := 0 } }
      { kind := BorrowKind.shared,
        borrowed_place := { base := PlaceBase.local_ 1, elems := [] },
        reserve_location := { block := 0, statement_index := 0 } }
      ({ base := PlaceBase.local_ 9, elems := [] }, 5) none (by decide) (by decide)
  · obtain ⟨d, hd, himp⟩ :=
      him env0 st0 { loc := { block := 0, statement_index := 0 } }
        { base := PlaceBase.local_ 9, elems := [] } 0
        { kind := BorrowKind.shared,
          borrowed_place := { base := PlaceBase.local_ 1, elems := [] },
          reserve_location := { block := 0, statement_index := 0 } }
    exact ⟨d, hd, himp (by decide)⟩
  · obtain ⟨d, hd, himp⟩ :=
      hra env0 st0 { loc := { block := 0, statement_index := 0 } }
        { base := PlaceBase.local_ 9, elems := [] } 1 2
        { base := PlaceBase.local_ 9, elems := [] }
    exact ⟨d, hd, himp (by decide) (by decide)⟩

/-! ### C5: provenance resolution is total with correct fallback -/

theorem find_closure_capture_span_mem (moved_place : Place)
    (pairs : List (Freevar × Operand)) (v : Span)
    (h : find_closure_capture_span moved_place pairs = some v) :
    ∃ pr ∈ pairs, pr.2 = Operand.copy moved_place ∨
      pr.2 = Operand.move moved_place := by
  induction pairs with
  | nil => simp [find_closure_capture_span] at h
  | cons pr rest ih =>
    obtain ⟨fv, op⟩ := pr
    cases op with
    | copy p =>
      simp only [find_closure_capture_span] at h
      by_cases hp : moved_place = p
      · exact ⟨(fv, Operand.copy p), List.mem_cons_self _ _, Or.inl (by rw [hp])⟩
      · rw [if_neg hp] at h
        obtain ⟨pr2, hmem, hor⟩ := ih h
        exact ⟨pr2, List.mem_cons_of_mem _ hmem, hor⟩
    | move p =>
      simp only [find_closure_capture_span] at h
      by_cases hp : moved_place = p
      · exact ⟨(fv, Operand.move p), List.mem_cons_self _ _, Or.inr (by rw [hp])⟩
      · rw [if_neg hp] at h
        obtain ⟨pr2, hmem, hor⟩ := ih h
        exact ⟨pr2, List.mem_cons_of_mem _ hmem, hor⟩
    | constant =>
      simp only [find_closure_capture_span] at h
      obtain ⟨pr2, hmem, hor⟩ := ih h
      exact ⟨pr2, List.mem_cons_of_mem _ hmem, hor⟩

theorem find_closure_capture_span_local_mem (l : Local)
    (pairs : List (Freevar × Operand)) (v : Span)
    (h : find_closure_capture_span_local l pairs = some v) :
    ∃ pr ∈ pairs, ∃ p, (pr.2 = Operand.copy p ∨ pr.2 = Operand.move p) ∧
      p.base = PlaceBase.local_ l ∧ p.has_no_projection = true := by
  induction pairs with
  | nil => simp [find_closure_capture_span_local] at h
  | cons pr rest ih =>
    obtain ⟨fv, op⟩ := pr
    cases op with
    | copy p =>
      simp only [find_closure_capture_span_local] at h
      by_cases hp : PlaceBase.local_ l = p.base ∧ p.has_no_projection = true
      · exact ⟨(fv, Operand.copy p), List.mem_cons_self _ _, p, Or.inl rfl,
          hp.1.symm, hp.2⟩
      · rw [if_neg hp] at h
        obtain ⟨pr2, hmem, hrest⟩ := ih h
        exact ⟨pr2, List.mem_cons_of_mem _ hmem, hrest⟩
    | move p =>
      simp only [find_closure_capture_span_local] at h
      by_cases hp : PlaceBase.local_ l = p.base ∧ p.has_no_projection = true
      · exact ⟨(fv, Operand.move p), List.mem_cons_self _ _, p, Or.inr rfl,
          hp.1.symm, hp.2⟩
      · rw [if_neg hp] at h
        obtain ⟨pr2, hmem, hrest⟩ := ih h
        exact ⟨pr2, List.mem_cons_of_mem _ hmem, hrest⟩
    | constant =>
      simp only [find_closure_capture_span_local] at h
      obtain ⟨pr2, hmem, hrest⟩ := ih h
      exact ⟨pr2, List.mem_cons_of_mem _ hmem, hrest⟩

theorem borrow_spans_scan_spec (env : Env) (use_span : Span) (l : Local)
    (stmts : List Statement) :
    borrow_spans_scan env use_span l stmts = UseSpans.other_use use_span ∨
      ∃ a v, borrow_spans_scan env use_span l stmts = UseSpans.closure_use a v ∧
        ∃ stmt ∈ stmts, ∃ pl def_id ops,
          stmt.kind = StatementKind.assign pl
            (Rvalue.aggregate (AggregateKind.closure def_id) ops) ∧
          ∃ op ∈ ops, ∃ p, (op = Operand.copy p ∨ op = Operand.move p) ∧
            p.base = PlaceBase.local_ l ∧ p.has_no_projection = true := by
  induction stmts with
  | nil => exact Or.inl rfl
  | cons stmt rest ih =>
    obtain ⟨kind, si⟩ := stmt
    have step : ∀ hne : StatementKind,
        (borrow_spans_scan env use_span l (⟨hne, si⟩ :: rest) =
          if use_span ≠ si.span then UseSpans.other_use use_span
          else borrow_spans_scan env use_span l rest) →
        (borrow_spans_scan env use_span l (⟨hne, si⟩ :: rest) =
            UseSpans.other_use use_span ∨
          ∃ a v, borrow_spans_scan env use_span l (⟨hne, si⟩ :: rest) =
              UseSpans.closure_use a v ∧
            ∃ stmt ∈ (⟨hne, si⟩ :: rest : List Statement), ∃ pl def_id ops,
              stmt.kind = StatementKind.assign pl
                (Rvalue.aggregate (AggregateKind.closure def_id) ops) ∧
              ∃ op ∈ ops, ∃ p, (op = Operand.copy p ∨ op = Operand.move p) ∧
                p.base = PlaceBase.local_ l ∧ p.has_no_projection = true) := by
      intro hne hstep
      by_cases hspan : use_span ≠ si.span
      · left; rw [hstep, if_pos hspan]
      · rw [hstep, if_neg hspan]
        rcases ih with hl | ⟨a, v, heq, stmt2, hmem, hrest⟩
        · exact Or.inl hl
        · exact Or.inr ⟨a, v, heq, stmt2, List.mem_cons_of_mem _ hmem, hrest⟩
    cases kind with
    | assign lhs rhs =>
      cases rhs with
      | aggregate k ops =>
        cases k with
        | closure def_id =>
          cases han : env.as_local_node_id def_id with
          | none => left; simp [borrow_spans_scan, han]
          | some node_id =>
            cases hsp : env.closure_args_span node_id with
            | none => left; simp [borrow_spans_scan, han, hsp]
            | some args_span =>
              cases hfind : find_closure_capture_span_local l
                  ((env.freevars node_id).zip ops) with
              | none => left; simp [borrow_spans_scan, han, hsp, hfind]
              | some var_span =>
                right
                refine ⟨args_span, var_span,
                  by simp [borrow_spans_scan, han, hsp, hfind], ?_⟩
                obtain ⟨pr, hmem, p, hor, hbase, hproj⟩ :=
                  find_closure_capture_span_local_mem l _ var_span hfind
                exact ⟨⟨StatementKind.assign lhs
                    (Rvalue.aggregate (AggregateKind.closure def_id) ops), si⟩,
                  List.mem_cons_self _ _, lhs, def_id, ops, rfl, pr.2,
                  (List.of_mem_zip hmem).2, p, hor, hbase, hproj⟩
        | other => exact step _ (by simp [borrow_spans_scan])
      | use_rv op => exact step _ (by simp [borrow_spans_scan])
      | other => exact step _ (by simp [borrow_spans_scan])
    | other => exact step _ (by simp [borrow_spans_scan])

theorem move_spans_spec (env : Env) (moved_place : Place) (loc : Location) :
    move_spans env moved_place loc =
        UseSpans.other_use (env.mir.source_info loc).span ∨
      ∃ a v, move_spans env moved_place loc = UseSpans.closure_use a v ∧
        ∃ stmt, (env.mir.blocks loc.block).statements[loc.statement_index]? =
            some stmt ∧
          ∃ pl def_id ops, stmt.kind = StatementKind.assign pl
              (Rvalue.aggregate (AggregateKind.closure def_id) ops) ∧
            ∃ op ∈ ops, op = Operand.copy moved_place ∨
              op = Operand.move moved_place := by
  cases hg : (env.mir.blocks loc.block).statements[loc.statement_index]? with
  | none => left; simp [move_spans, hg]
  | some stmt =>
    obtain ⟨kind, si⟩ := stmt
    have hsi : (env.mir.source_info loc).span = si.span := by
      simp [Mir.source_info, hg]
    cases kind with
    | assign lhs rhs =>
      cases rhs with
      | aggregate k ops =>
        cases k with
        | closure def_id =>
          cases han : env.as_local_node_id def_id with
          | none => left; rw [hsi]; simp [move_spans, hg, han]
          | some node_id =>
            cases hsp : env.closure_args_span node_id with
            | none => left; rw [hsi]; simp [move_spans, hg, han, hsp]
            | some args_span =>
              cases hfind : find_closure_capture_span moved_place
                  ((env.freevars node_id).zip ops) with
              | none => left; rw [hsi]; simp [move_spans, hg, han, hsp, hfind]
              | some var_span =>
                right
                refine ⟨args_span, var_span,
                  by simp [move_spans, hg, han, hsp, hfind], ?_⟩
                obtain ⟨pr, hmem, hor⟩ :=
                  find_closure_capture_span_mem moved_place _ var_span hfind
                exact ⟨⟨StatementKind.assign lhs
                    (Rvalue.aggregate (AggregateKind.closure def_id) ops), si⟩,
                  rfl, lhs, def_id, ops, rfl, pr.2, (List.of_mem_zip hmem).2, hor⟩
        | other => left; rw [hsi]; simp [move_spans, hg]
      | use_rv op => left; rw [hsi]; simp [move_spans, hg]
      | other => left; rw [hsi]; simp [move_spans, hg]
    | other => left; rw [hsi]; simp [move_spans, hg]

/-- C5: provenance resolution is total and the fallback is correct.
`borrow_spans` yields a two-span `closure_use` only when the statement
at the location assigns to a place rooted at a temporary local and a
closure-construction aggregate among the subsequent statements of the
block captures that bare temporary; in every other case it yields a
single-span `other_use` carrying its `use_span` argument — the
instruction's own source position as supplied by its callers
(`retrieve_borrow_spans` passes `source_info(reserve_location).span`).
Analogously, `move_spans` yields `closure_use` only when the statement
at the location itself is a closure-construction aggregate capturing the
moved place, and otherwise `other_use` of the location's own source
info. -/
theorem C5_provenance_total_fallback (env : Env) (use_span : Span)
    (loc : Location) (moved_place : Place) :
    (borrow_spans env use_span loc = UseSpans.other_use use_span ∨
      ∃ a v, borrow_spans env use_span loc = UseSpans.closure_use a v ∧
        ∃ l, (∃ pl rhs si,
            (env.mir.blocks loc.block).statements[loc.statement_index]? =
              some { kind := StatementKind.assign pl rhs, source_info := si } ∧
            pl.base = PlaceBase.local_ l) ∧
          env.mir.local_kinds l = LocalKind.temp ∧
          ∃ stmt ∈ (env.mir.blocks loc.block).statements.drop
              (loc.statement_index + 1), ∃ pl2 def_id ops,
            stmt.kind = StatementKind.assign pl2
              (Rvalue.aggregate (AggregateKind.closure def_id) ops) ∧
            ∃ op ∈ ops, ∃ p, (op = Operand.copy p ∨ op = Operand.move p) ∧
              p.base = PlaceBase.local_ l ∧ p.has_no_projection = true) ∧
    (move_spans env moved_place loc =
        UseSpans.other_use (env.mir.source_info loc).span ∨
      ∃ a v, move_spans env moved_place loc = UseSpans.closure_use a v ∧
        ∃ stmt, (env.mir.blocks loc.block).statements[loc.statement_index]? =
            some stmt ∧
          ∃ pl def_id ops, stmt.kind = StatementKind.assign pl
              (Rvalue.aggregate (AggregateKind.closure def_id) ops) ∧
            ∃ op ∈ ops, op = Operand.copy moved_place ∨
              op = Operand.move moved_place) := by
  constructor
  · cases hg : (env.mir.blocks loc.block).statements[loc.statement_index]? with
    | none => left; simp [borrow_spans, hg]
    | some stmt =>
      obtain ⟨kind, si⟩ := stmt
      cases kind with
      | assign lhs rhs =>
        obtain ⟨lbase, lelems⟩ := lhs
        cases lbase with
        | local_ l =>
          by_cases hk : env.mir.local_kinds l = LocalKind.temp
          · have hb : borrow_spans env use_span loc =
                borrow_spans_scan env use_span l
                  ((env.mir.blocks loc.block).statements.drop
                    (loc.statement_index + 1)) := by
              simp [borrow_spans, hg, hk]
            rcases borrow_spans_scan_spec env use_span l
                ((env.mir.blocks loc.block).statements.drop
                  (loc.statement_index + 1)) with hl | ⟨a, v, heq, hex⟩
            · left; rw [hb, hl]
            · right
              exact ⟨a, v, by rw [hb, heq], l,
                ⟨{ base := PlaceBase.local_ l, elems := lelems }, rhs, si, rfl, rfl⟩,
                hk, hex⟩
          · left; simp [borrow_spans, hg, hk]
        | static_ s => left; simp [borrow_spans, hg]
        | promoted pr => left; simp [borrow_spans, hg]
      | other => left; simp [borrow_spans, hg]
  · exact move_spans_spec env moved_place loc

/-! ### C6: the Copy note -/

/-- Move data whose single in-flight move moved `*_2` (a dereference),
whose type is not retrievable, while the used place `_2` itself has a
retrievable non-closure type. -/
def envC6 : Env :=
  { env0 with
    move_data :=
      { path_map := fun _ => [0],
        moves := fun _ => { path := 7, source := { block := 0, statement_index := 0 } },
        move_paths := fun _ =>
          { place := { base := PlaceBase.local_ 2,
                       elems := [ProjectionElem.deref] } } } }

/-- C6 counterexample: the used place's type is retrievable (`_2` is a
base local of tuple type) and is not a closure, yet the buffered
use-of-moved diagnostic carries no note at all, because the recorded
move's place `*_2` ends in a dereference and its type is not
retrievable — the claim omits this extra requirement on the moved
place. -/
theorem C6_counterexample :
    retrieve_type_for_place envC6 { base := PlaceBase.local_ 2, elems := [] } =
        some Ty.ty_tuple ∧
    needs_note_for envC6 Ty.ty_tuple = true ∧
    retrieve_type_for_place envC6
        { base := PlaceBase.local_ 2, elems := [ProjectionElem.deref] } = none ∧
    (report_use_of_moved_or_uninitialized envC6 st0
        { loc := { block := 0, statement_index := 0 } }
        InitializationRequiringAction.read
        { base := PlaceBase.local_ 2, elems := [] } 0 0
        (fun _ => true)).errors_buffer.map Diagnostic.notes = [[]] := by decide

/-- C6 as amended: the Copy note is attached provided, in addition to the
claim's conditions on the used place, the type of the first recorded
move's place is itself retrievable; the note names that moved place's
description or falls back to "value". -/
theorem C6_amended_copy_note (env : Env) (st : CkState) (context : Context)
    (desired_action : InitializationRequiringAction) (place : Place)
    (span0 : Span) (mpi : MovePathIndex) (curr_move_out : MoveOutIndex → Bool)
    (moi0 : MoveOutIndex) (rest : List MoveOutIndex) (ty ty2 : Ty)
    (hm : (env.move_data.path_map mpi).filter (fun moi => curr_move_out moi) =
      moi0 :: rest)
    (hty : retrieve_type_for_place env place = some ty)
    (hn : needs_note_for env ty = true)
    (hty2 : retrieve_type_for_place env
      (env.move_data.move_paths (env.move_data.moves moi0).path).place = some ty2) :
    ∃ d, (report_use_of_moved_or_uninitialized env st context desired_action place
        span0 mpi curr_move_out).errors_buffer = st.errors_buffer ++ [d] ∧
      ("move occurs because " ++
          (match describe_place_with_options env
              (env.move_data.move_paths (env.move_data.moves moi0).path).place true with
            | some name => "`" ++ name ++ "`"
            | none => "value") ++
          " has type `" ++ ty_display ty2 ++
          "`, which does not implement the `Copy` trait") ∈ d.notes := by
  unfold report_use_of_moved_or_uninitialized
  simp only [hm]
  refine ⟨_, rfl, ?_⟩
  simp only [copy_note_stage, hty, hn, if_true, hty2]
  simp [Diagnostic.note]

/-- Witness for the amended C6 at a concrete body where the moved place's
type is retrievable: the note is buffered. -/
theorem C6_witness :
    ∃ d, (report_use_of_moved_or_uninitialized envC1 st0
          { loc := { block := 0, statement_index := 0 } }
          InitializationRequiringAction.read
          { base := PlaceBase.local_ 1, elems := [] } 0 0
          (fun _ => true)).errors_buffer = st0.errors_buffer ++ [d] ∧
      "move occurs because value has type `(..)`, which does not implement the `Copy` trait" ∈
        d.notes :=
  C6_amended_copy_note envC1 st0 { loc := { block := 0, statement_index := 0 } }
    InitializationRequiringAction.read { base := PlaceBase.local_ 1, elems := [] }
    0 0 (fun _ => true) 0 [] Ty.ty_tuple Ty.ty_tuple (by decide) (by decide)
    (by decide) (by decide)

/-! ### C7: illegal reassignment labels -/

theorem mem_span_label (d : Diagnostic) (sp : Span) (msg : String)
    {x : Span × String} (h : x ∈ d.labels) : x ∈ (d.span_label sp msg).labels := by
  rw [span_label_labels]
  exact List.mem_append_left _ h

theorem mem_reassignment_suggest_label (d : Diagnostic) (ld : Option LocalDecl)
    {x : Span × String} (h : x ∈ d.labels) :
    x ∈ (reassignment_suggest_label d ld).labels := by
  cases ld with
  | none => exact h
  | some decl =>
    obtain ⟨dname, dty, dsi, diuv, dcbm⟩ := decl
    cases dname with
    | none => exact h
    | some name =>
      cases dcbm with
      | true => exact mem_span_label _ _ _ h
      | false => exact h

theorem report_illegal_reassignment_finish_spec (env : Env) (st : CkState)
    (place : Place) (span : Span) (assigned_span : Span) (err_place : Place)
    (from_arg : Bool) (decl : LocalDecl) :
    ∃ d, (report_illegal_reassignment_finish env st place span assigned_span
        err_place from_arg (some decl)).errors_buffer = st.errors_buffer ++ [d] ∧
      (span ≠ (reassignment_description_and_span env place err_place assigned_span
          (some decl)).2 → from_arg = false →
        ((reassignment_description_and_span env place err_place assigned_span
            (some decl)).2,
          "first assignment to " ++
            (match (reassignment_description_and_span env place err_place
                assigned_span (some decl)).1 with
              | some name => "`" ++ name ++ "`"
              | none => "value")) ∈ d.labels) ∧
      (∀ name, decl.name = some name → decl.can_be_made_mutable = true →
        (decl.source_info.span, "consider changing this to `mut " ++ name ++ "`") ∈
          d.labels) := by
  unfold report_illegal_reassignment_finish
  refine ⟨_, rfl, ?_, ?_⟩
  · intro hne hfa
    subst hfa
    rw [if_pos hne]
    apply mem_span_label
    apply mem_reassignment_suggest_label
    simp [span_label_labels]
  · intro name hn hc
    obtain ⟨dname, dty, dsi, diuv, dcbm⟩ := decl
    simp only at hn hc
    subst hn
    subst hc
    apply mem_span_label
    simp only [reassignment_suggest_label, if_true]
    simp [span_label_labels]

/-- Context with a pattern-bound (`opt_match_place` set) unnamed local
`_3` declared at span 5. -/
def envC7 : Env :=
  { env0 with
    mir :=
      { mir0 with
        local_decls := fun l =>
          if l = 3 then
            { name := none, ty := Ty.ty_tuple, source_info := { span := 5 },
              is_user_variable := some (ClearCrossCrate.set (BindingForm.var
                { opt_match_place := some (none, 9) })),
              can_be_made_mutable := false }
          else mir0.local_decls l } }

/-- C7 counterexample: the new write (span 5) differs from the first
assignment (span 7) and the root `_3` is not an argument, so the claim
mandates a "first assignment to ..." label at span 7 — but because `_3`
is a pattern-bound user variable the code blames the declaration span
instead and compares against it (they coincide at 5), buffering a
diagnostic with no label at span 7 at all. -/
theorem C7_counterexample :
    (5 : Span) ≠ (7 : Span) ∧
    envC7.mir.local_kinds 3 ≠ LocalKind.arg ∧
    ∀ d ∈ (report_illegal_reassignment envC7 st0
        { loc := { block := 0, statement_index := 0 } }
        ({ base := PlaceBase.local_ 3, elems := [] }, 5) 7
        { base := PlaceBase.local_ 3, elems := [] }).errors_buffer,
      ∀ p ∈ d.labels, p.1 ≠ 7 := by decide

/-- C7 as amended: for a write to (part of) a root local given as the
bare `err_place`, exactly one diagnostic is buffered; the "first
assignment to ..." label is attached at the *adjusted* blame span — the
declaration span when the root is a pattern-bound user variable, the
passed first-assignment span otherwise — whenever the write's span
differs from that adjusted span and the root is not an argument; and the
`mut` suggestion is attached whenever the root's declaration has a name
and can be made mutable. -/
theorem C7_amended_reassignment_labels (env : Env) (st : CkState)
    (context : Context) (place : Place) (span : Span) (assigned_span : Span)
    (l : Local) :
    ∃ d, (report_illegal_reassignment env st context (place, span) assigned_span
        { base := PlaceBase.local_ l, elems := [] }).errors_buffer =
      st.errors_buffer ++ [d] ∧
      (span ≠ (reassignment_description_and_span env place
          { base := PlaceBase.local_ l, elems := [] } assigned_span
          (some (env.mir.local_decls l))).2 →
        env.mir.local_kinds l ≠ LocalKind.arg →
        ((reassignment_description_and_span env place
            { base := PlaceBase.local_ l, elems := [] } assigned_span
            (some (env.mir.local_decls l))).2,
          "first assignment to " ++
            (match (reassignment_description_and_span env place
                { base := PlaceBase.local_ l, elems := [] } assigned_span
                (some (env.mir.local_decls l))).1 with
              | some name => "`" ++ name ++ "`"
              | none => "value")) ∈ d.labels) ∧
      (∀ name, (env.mir.local_decls l).name = some name →
        (env.mir.local_decls l).can_be_made_mutable = true →
        ((env.mir.local_decls l).source_info.span,
          "consider changing this to `mut " ++ name ++ "`") ∈ d.labels) := by
  cases hka : env.mir.local_kinds l with
  | arg =>
    have heq : report_illegal_reassignment env st context (place, span) assigned_span
        { base := PlaceBase.local_ l, elems := [] } =
      report_illegal_reassignment_finish env st place span assigned_span
        { base := PlaceBase.local_ l, elems := [] } true
        (some (env.mir.local_decls l)) := by
      simp [report_illegal_reassignment, hka, Place.has_no_projection]
    rw [heq]
    obtain ⟨d, hd, ha, hb⟩ := report_illegal_reassignment_finish_spec env st place
      span assigned_span { base := PlaceBase.local_ l, elems := [] } true
      (env.mir.local_decls l)
    exact ⟨d, hd, fun h1 h2 => absurd rfl h2, hb⟩
  | var =>
    have heq : report_illegal_reassignment env st context (place, span) assigned_span
        { base := PlaceBase.local_ l, elems := [] } =
      report_illegal_reassignment_finish env st place span assigned_span
        { base := PlaceBase.local_ l, elems := [] } false
        (some (env.mir.local_decls l)) := by
      simp [report_illegal_reassignment, hka, Place.has_no_projection]
    rw [heq]
    obtain ⟨d, hd, ha, hb⟩ := report_illegal_reassignment_finish_spec env st place
      span assigned_span { base := PlaceBase.local_ l, elems := [] } false
      (env.mir.local_decls l)
    exact ⟨d, hd, fun h1 _ => ha h1 rfl, hb⟩
  | temp =>
    have heq : report_illegal_reassignment env st context (place, span) assigned_span
        { base := PlaceBase.local_ l, elems := [] } =
      report_illegal_reassignment_finish env st place span assigned_span
        { base := PlaceBase.local_ l, elems := [] } false
        (some (env.mir.local_decls l)) := by
      simp [report_illegal_reassignment, hka, Place.has_no_projection]
    rw [heq]
    obtain ⟨d, hd, ha, hb⟩ := report_illegal_reassignment_finish_spec env st place
      span assigned_span { base := PlaceBase.local_ l, elems := [] } false
      (env.mir.local_decls l)
    exact ⟨d, hd, fun h1 _ => ha h1 rfl, hb⟩
  | return_pointer =>
    have heq : report_illegal_reassignment env st context (place, span) assigned_span
        { base := PlaceBase.local_ l, elems := [] } =
      report_illegal_reassignment_finish env st place span assigned_span
        { base := PlaceBase.local_ l, elems := [] } false
        (some (env.mir.local_decls l)) := by
      simp [report_illegal_reassignment, hka, Place.has_no_projection]
    rw [heq]
    obtain ⟨d, hd, ha, hb⟩ := report_illegal_reassignment_finish_spec env st place
      span assigned_span { base := PlaceBase.local_ l, elems := [] } false
      (env.mir.local_decls l)
    exact ⟨d, hd, fun h1 _ => ha h1 rfl, hb⟩

/-- Context with a simply-bound mutable-suggestible local `_4` named `y`
declared at span 3. -/
def envC7w : Env :=
  { env0 with
    mir :=
      { mir0 with
        local_decls := fun l =>
          if l = 4 then
            { name := some "y", ty := Ty.ty_tuple, source_info := { span := 3 },
              is_user_variable := some (ClearCrossCrate.set (BindingForm.var
                { opt_match_place := none })),
              can_be_made_mutable := true }
          else mir0.local_decls l } }

/-- Witness for the amended C7: both labels are attached for a named,
simply-bound, non-argument root. -/
theorem C7_witness :
    ∃ d, (report_illegal_reassignment envC7w st0
        { loc := { block := 0, statement_index := 0 } }
        ({ base := PlaceBase.local_ 4, elems := [] }, 1) 2
        { base := PlaceBase.local_ 4, elems := [] }).errors_buffer =
      st0.errors_buffer ++ [d] ∧
      (2, "first assignment to `y`") ∈ d.labels ∧
      (3, "consider changing this to `mut y`") ∈ d.labels := by
  obtain ⟨d, hd, ha, hb⟩ := C7_amended_reassignment_labels envC7w st0
    { loc := { block := 0, statement_index := 0 } }
    { base := PlaceBase.local_ 4, elems := [] } 1 2 4
  exact ⟨d, hd, ha (by decide) (by decide), hb "y" (by decide) (by decide)⟩

/-! ### C4: the loop-iteration phrasing -/

/-- Whether the recorded move `moi` shares its (args-or-use) span with
the new use's span — the condition selecting the loop phrasing. -/
def is_loop_moi (env : Env) (span : Span) (moi : MoveOutIndex) : Bool :=
  decide (span = (move_spans env
    (env.move_data.move_paths (env.move_data.moves moi).path).place
    (env.move_data.moves moi).source).args_or_use)

/-- The labels attached by the per-move loop (lines 95-118), as a list. -/
def loop_labels (env : Env) (span : Span) : List MoveOutIndex → List (Span × String)
  | [] => []
  | moi :: rest =>
    let move_out := env.move_data.moves moi
    let moved_place := (env.move_data.move_paths move_out.path).place
    let mv_spans := move_spans env moved_place move_out.source
    let move_span := mv_spans.args_or_use
    let move_msg := if mv_spans.for_closure then " into closure" else ""
    (if span = move_span then
       [(span, "value moved" ++ move_msg ++ " here in previous iteration of loop")]
     else
       [(move_span, "value moved" ++ move_msg ++ " here")] ++
         (match mv_spans with
          | UseSpans.closure_use _ v => [(v, "variable moved due to use in closure")]
          | UseSpans.other_use _ => [])) ++ loop_labels env span rest

theorem move_labels_loop_snd (env : Env) (span : Span) :
    ∀ (l : List MoveOutIndex) (err : Diagnostic) (b : Bool),
      (move_labels_loop env span l err b).2 =
        (b || l.any (fun moi => is_loop_moi env span moi)) := by
  intro l
  induction l with
  | nil => intro err b; simp [move_labels_loop]
  | cons moi rest ih =>
    intro err b
    simp only [move_labels_loop]
    by_cases h : span = (move_spans env
        (env.move_data.move_paths (env.move_data.moves moi).path).place
        (env.move_data.moves moi).source).args_or_use
    · rw [if_pos h, ih]
      simp [is_loop_moi, h]
    · rw [if_neg h, ih]
      simp [is_loop_moi, h]

theorem var_span_label_labels_eq (u : UseSpans) (d : Diagnostic) (msg : String) :
    (u.var_span_label d msg).labels =
      d.labels ++ (match u with
        | UseSpans.closure_use _ v => [(v, msg)]
        | UseSpans.other_use _ => []) := by
  cases u with
  | closure_use a v => rfl
  | other_use s => simp [UseSpans.var_span_label]

theorem move_labels_loop_fst (env : Env) (span : Span) :
    ∀ (l : List MoveOutIndex) (err : Diagnostic) (b : Bool),
      (move_labels_loop env span l err b).1.labels =
        err.labels ++ loop_labels env span l := by
  intro l
  induction l with
  | nil => intro err b; simp [move_labels_loop, loop_labels]
  | cons moi rest ih =>
    intro err b
    simp only [move_labels_loop, loop_labels]
    by_cases h : span = (move_spans env
        (env.move_data.move_paths (env.move_data.moves moi).path).place
        (env.move_data.moves moi).source).args_or_use
    · simp only [if_pos h]
      rw [ih]
      simp [span_label_labels]
    · simp only [if_neg h]
      rw [ih]
      rw [var_span_label_labels_eq]
      simp [span_label_labels]

theorem loop_labels_mem_at_span (env : Env) (span : Span) :
    ∀ (l : List MoveOutIndex) (s : String),
      (span, s) ∈ loop_labels env span l →
      s = "variable moved due to use in closure" ∨
        ((s = "value moved here in previous iteration of loop" ∨
          s = "value moved into closure here in previous iteration of loop") ∧
          ∃ moi ∈ l, is_loop_moi env span moi = true) := by
  intro l
  induction l with
  | nil => intro s h; simp [loop_labels] at h
  | cons moi rest ih =>
    intro s h
    simp only [loop_labels] at h
    by_cases hsp : span = (move_spans env
        (env.move_data.move_paths (env.move_data.moves moi).path).place
        (env.move_data.moves moi).source).args_or_use
    · rw [if_pos hsp] at h
      rcases List.mem_append.mp h with h1 | h2
      · right
        cases hc : (move_spans env
            (env.move_data.move_paths (env.move_data.moves moi).path).place
            (env.move_data.moves moi).source).for_closure with
        | true =>
          rw [hc] at h1
          simp at h1
          refine ⟨Or.inr h1, moi, List.mem_cons_self _ _, ?_⟩
          simp [is_loop_moi, hsp]
        | false =>
          rw [hc] at h1
          simp at h1
          refine ⟨Or.inl h1, moi, List.mem_cons_self _ _, ?_⟩
          simp [is_loop_moi, hsp]
      · rcases ih s h2 with hv | ⟨hstr, moi2, hmem, hml⟩
        · exact Or.inl hv
        · exact Or.inr ⟨hstr, moi2, List.mem_cons_of_mem _ hmem, hml⟩
    · rw [if_neg hsp] at h
      rcases List.mem_append.mp h with h1 | h2
      · rcases List.mem_append.mp h1 with h1a | h1b
        · exfalso
          simp at h1a
          exact hsp h1a.1
        · cases hmv : move_spans env
              (env.move_data.move_paths (env.move_data.moves moi).path).place
              (env.move_data.moves moi).source with
          | closure_use a v =>
            rw [hmv] at h1b
            simp at h1b
            exact Or.inl h1b.2
          | other_use s0 =>
            rw [hmv] at h1b
            simp at h1b
      · rcases ih s h2 with hv | ⟨hstr, moi2, hmem, hml⟩
        · exact Or.inl hv
        · exact Or.inr ⟨hstr, moi2, List.mem_cons_of_mem _ hmem, hml⟩

theorem loop_labels_mem_of_loop (env : Env) (span : Span) :
    ∀ (l : List MoveOutIndex),
      (∃ moi ∈ l, is_loop_moi env span moi = true) →
      ∃ s, (span, s) ∈ loop_labels env span l ∧
        (s = "value moved here in previous iteration of loop" ∨
          s = "value moved into closure here in previous iteration of loop") := by
  intro l
  induction l with
  | nil => intro h; simp at h
  | cons moi rest ih =>
    intro h
    obtain ⟨moi2, hmem, hml⟩ := h
    rcases List.mem_cons.mp hmem with rfl | hmem2
    · have hsp : span = (move_spans env
          (env.move_data.move_paths (env.move_data.moves moi2).path).place
          (env.move_data.moves moi2).source).args_or_use := by
        simpa [is_loop_moi] using hml
      cases hc : (move_spans env
          (env.move_data.move_paths (env.move_data.moves moi2).path).place
          (env.move_data.moves moi2).source).for_closure with
      | true =>
        refine ⟨"value moved into closure here in previous iteration of loop", ?_, Or.inr rfl⟩
        simp only [loop_labels, if_pos hsp, hc]
        simp
      | false =>
        refine ⟨"value moved here in previous iteration of loop", ?_, Or.inl rfl⟩
        simp only [loop_labels, if_pos hsp, hc]
        simp
    · obtain ⟨s, hs, hstr⟩ := ih ⟨moi2, hmem2, hml⟩
      refine ⟨s, ?_, hstr⟩
      simp only [loop_labels]
      exact List.mem_append_right _ hs

/-- The distinguishing string facts about the action-dependent labels. -/
theorem action_label_strings (da : InitializationRequiringAction) :
    (da.as_noun ++ " occurs due to use in closure" ≠
      "value moved here in previous iteration of loop") ∧
    (da.as_noun ++ " occurs due to use in closure" ≠
      "value moved into closure here in previous iteration of loop") ∧
    ("value " ++ da.as_verb_in_past_tense ++ " here after move" ≠
      "value moved here in previous iteration of loop") ∧
    ("value " ++ da.as_verb_in_past_tense ++ " here after move" ≠
      "value moved into closure here in previous iteration of loop") ∧
    ("value " ++ da.as_verb_in_past_tense ++ " here after move" ≠
      "variable moved due to use in closure") ∧
    ("value " ++ da.as_verb_in_past_tense ++ " here after move" ≠
      da.as_noun ++ " occurs due to use in closure") := by
  cases da <;>
    exact ⟨by decide, by decide, by decide, by decide, by decide, by decide⟩

theorem copy_note_stage_labels (env : Env) (place : Place) (moi0 : MoveOutIndex)
    (err : Diagnostic) :
    (copy_note_stage env place moi0 err).labels = err.labels := by
  unfold copy_note_stage
  cases h : retrieve_type_for_place env place with
  | none => rfl
  | some ty =>
    cases hn : needs_note_for env ty with
    | false => simp [hn]
    | true =>
      simp only [hn, if_true]
      cases h2 : retrieve_type_for_place env
          (env.move_data.move_paths (env.move_data.moves moi0).path).place with
      | none => rfl
      | some ty2 => rfl

/-- The full label layout of the use-of-moved diagnostic (the `else`
branch of `report_use_of_moved_or_uninitialized`). -/
theorem report_moved_labels (env : Env) (st : CkState) (context : Context)
    (desired_action : InitializationRequiringAction) (place : Place)
    (span0 : Span) (mpi : MovePathIndex) (curr_move_out : MoveOutIndex → Bool)
    (moi0 : MoveOutIndex) (rest : List MoveOutIndex)
    (hm : (env.move_data.path_map mpi).filter (fun moi => curr_move_out moi) =
      moi0 :: rest) :
    ∃ d, (report_use_of_moved_or_uninitialized env st context desired_action place
        span0 mpi curr_move_out).errors_buffer = st.errors_buffer ++ [d] ∧
      d.labels =
        loop_labels env
            ((move_spans env place context.loc).or_else
              (fun _ => borrow_spans env span0 context.loc)).args_or_use
            (moi0 :: rest) ++
          (match (move_spans env place context.loc).or_else
              (fun _ => borrow_spans env span0 context.loc) with
            | UseSpans.closure_use _ v =>
              [(v, desired_action.as_noun ++ " occurs due to use in closure")]
            | UseSpans.other_use _ => []) ++
          (if (moi0 :: rest).any (fun moi => is_loop_moi env
              ((move_spans env place context.loc).or_else
                (fun _ => borrow_spans env span0 context.loc)).args_or_use moi)
            then []
            else [(((move_spans env place context.loc).or_else
                (fun _ => borrow_spans env span0 context.loc)).args_or_use,
              "value " ++ desired_action.as_verb_in_past_tense ++
                " here after move")]) := by
  unfold report_use_of_moved_or_uninitialized
  simp only [hm]
  refine ⟨_, rfl, ?_⟩
  rw [copy_note_stage_labels]
  cases hany : (moi0 :: rest).any (fun moi => is_loop_moi env
      ((move_spans env place context.loc).or_else
        (fun _ => borrow_spans env span0 context.loc)).args_or_use moi) with
  | true =>
    have hsnd := move_labels_loop_snd env
      ((move_spans env place context.loc).or_else
        (fun _ => borrow_spans env span0 context.loc)).args_or_use
      (moi0 :: rest)
      (cannot_act_on_moved_value
        ((move_spans env place context.loc).or_else
          (fun _ => borrow_spans env span0 context.loc)).args_or_use
        desired_action.as_noun "" (describe_place_with_options env place true))
      false
    rw [hany] at hsnd
    simp only [Bool.false_or] at hsnd
    rw [hsnd]
    simp only [Bool.not_true, Bool.false_eq_true, if_false]
    rw [var_span_label_labels_eq, move_labels_loop_fst]
    simp [cannot_act_on_moved_value]
  | false =>
    have hsnd := move_labels_loop_snd env
      ((move_spans env place context.loc).or_else
        (fun _ => borrow_spans env span0 context.loc)).args_or_use
      (moi0 :: rest)
      (cannot_act_on_moved_value
        ((move_spans env place context.loc).or_else
          (fun _ => borrow_spans env span0 context.loc)).args_or_use
        desired_action.as_noun "" (describe_place_with_options env place true))
      false
    rw [hany] at hsnd
    simp only [Bool.false_or] at hsnd
    rw [hsnd]
    simp only [Bool.not_false, eq_self_iff_true, if_true]
    rw [span_label_labels, var_span_label_labels_eq, move_labels_loop_fst]
    simp [cannot_act_on_moved_value]

/-- C4: in a use-of-moved diagnostic, a loop-iteration label
("value moved here in previous iteration of loop", or its "into closure"
variant) is attached at the use's span exactly when some recorded
in-flight move of the path shares its span with the new use; and the
"value ... here after move" label on the use span is attached exactly
when no recorded move shares the use's span. -/
theorem C4_loop_iteration_phrasing (env : Env) (st : CkState) (context : Context)
    (desired_action : InitializationRequiringAction) (place : Place)
    (span0 : Span) (mpi : MovePathIndex) (curr_move_out : MoveOutIndex → Bool)
    (moi0 : MoveOutIndex) (rest : List MoveOutIndex)
    (hm : (env.move_data.path_map mpi).filter (fun moi => curr_move_out moi) =
      moi0 :: rest) :
    ∃ d, (report_use_of_moved_or_uninitialized env st context desired_action place
        span0 mpi curr_move_out).errors_buffer = st.errors_buffer ++ [d] ∧
      ((∃ moi ∈ moi0 :: rest,
          ((move_spans env place context.loc).or_else
            (fun _ => borrow_spans env span0 context.loc)).args_or_use =
          (move_spans env
            (env.move_data.move_paths (env.move_data.moves moi).path).place
            (env.move_data.moves moi).source).args_or_use) ↔
        (∃ s, (((move_spans env place context.loc).or_else
              (fun _ => borrow_spans env span0 context.loc)).args_or_use, s) ∈
            d.labels ∧
          (s = "value moved here in previous iteration of loop" ∨
            s = "value moved into closure here in previous iteration of loop"))) ∧
      ((∀ moi ∈ moi0 :: rest,
          ((move_spans env place context.loc).or_else
            (fun _ => borrow_spans env span0 context.loc)).args_or_use ≠
          (move_spans env
            (env.move_data.move_paths (env.move_data.moves moi).path).place
            (env.move_data.moves moi).source).args_or_use) ↔
        ((((move_spans env place context.loc).or_else
            (fun _ => borrow_spans env span0 context.loc)).args_or_use,
          "value " ++ desired_action.as_verb_in_past_tense ++ " here after move") ∈
          d.labels)) := by
  obtain ⟨d, hd, hlabels⟩ := report_moved_labels env st context desired_action place
    span0 mpi curr_move_out moi0 rest hm
  obtain ⟨hn1, hn2, ha1, ha2, ha3, ha4⟩ := action_label_strings desired_action
  refine ⟨d, hd, ?_, ?_⟩
  · constructor
    · intro hex
      obtain ⟨moi, hmem, hsp⟩ := hex
      obtain ⟨s, hs, hstr⟩ := loop_labels_mem_of_loop env
        ((move_spans env place context.loc).or_else
          (fun _ => borrow_spans env span0 context.loc)).args_or_use (moi0 :: rest)
        ⟨moi, hmem, by simp [is_loop_moi, hsp]⟩
      refine ⟨s, ?_, hstr⟩
      rw [hlabels]
      exact List.mem_append_left _ (List.mem_append_left _ hs)
    · intro hex
      obtain ⟨s, hs, hstr⟩ := hex
      rw [hlabels] at hs
      rcases List.mem_append.mp hs with hs1 | hs2
      · rcases List.mem_append.mp hs1 with hs1a | hs1b
        · rcases loop_labels_mem_at_span env _ _ _ hs1a with hv | ⟨_, moi, hmem, hml⟩
          · rcases hstr with h | h <;> rw [h] at hv <;> exact absurd hv (by decide)
          · exact ⟨moi, hmem, by simpa [is_loop_moi] using hml⟩
        · exfalso
          cases hu : (move_spans env place context.loc).or_else
              (fun _ => borrow_spans env span0 context.loc) with
          | closure_use a v =>
            rw [hu] at hs1b
            rw [List.mem_singleton, Prod.mk.injEq] at hs1b
            rcases hstr with h | h
            · exact hn1 (by rw [← hs1b.2, h])
            · exact hn2 (by rw [← hs1b.2, h])
          | other_use s1 =>
            rw [hu] at hs1b
            simp at hs1b
      · exfalso
        by_cases hany : (moi0 :: rest).any (fun moi => is_loop_moi env
            ((move_spans env place context.loc).or_else
              (fun _ => borrow_spans env span0 context.loc)).args_or_use moi)
        · rw [if_pos hany] at hs2
          simp at hs2
        · rw [if_neg hany] at hs2
          rw [List.mem_singleton, Prod.mk.injEq] at hs2
          rcases hstr with h | h
          · exact ha1 (by rw [← hs2.2, h])
          · exact ha2 (by rw [← hs2.2, h])
  · constructor
    · intro hall
      have hany : (moi0 :: rest).any (fun moi => is_loop_moi env
          ((move_spans env place context.loc).or_else
            (fun _ => borrow_spans env span0 context.loc)).args_or_use moi) =
          false := by
        rw [Bool.eq_false_iff]
        intro hc
        obtain ⟨moi, hmem, hml⟩ := List.any_eq_true.mp hc
        exact hall moi hmem (by simpa [is_loop_moi] using hml)
      rw [hlabels, hany]
      simp
    · intro hmem moi hmemmoi hsp
      rw [hlabels] at hmem
      rcases List.mem_append.mp hmem with hs1 | hs2
      · rcases List.mem_append.mp hs1 with hs1a | hs1b
        · rcases loop_labels_mem_at_span env _ _ _ hs1a with hv | ⟨hstr, _, _, _⟩
          · exact ha3 hv
          · rcases hstr with h | h
            · exact ha1 h
            · exact ha2 h
        · cases hu : (move_spans env place context.loc).or_else
              (fun _ => borrow_spans env span0 context.loc) with
          | closure_use a v =>
            rw [hu] at hs1b
            rw [List.mem_singleton, Prod.mk.injEq] at hs1b
            exact ha4 hs1b.2
          | other_use s1 =>
            rw [hu] at hs1b
            simp at hs1b
      · have hany : (moi0 :: rest).any (fun moi => is_loop_moi env
            ((move_spans env place context.loc).or_else
              (fun _ => borrow_spans env span0 context.loc)).args_or_use moi) =
            true :=
          List.any_eq_true.mpr ⟨moi, hmemmoi, by simp [is_loop_moi, hsp]⟩
        rw [if_pos hany] at hs2
        simp at hs2

/-- Witness for C4 at a concrete body: the single in-flight move shares
the use's span, so the loop phrasing is selected. -/
theorem C4_witness :
    ∃ d, (report_use_of_moved_or_uninitialized envC1 st0
        { loc := { block := 0, statement_index := 0 } }
        InitializationRequiringAction.read
        { base := PlaceBase.local_ 1, elems := [] } 0 0
        (fun _ => true)).errors_buffer = st0.errors_buffer ++ [d] ∧
      ((∃ moi ∈ [(0 : MoveOutIndex)],
          ((move_spans envC1 { base := PlaceBase.local_ 1, elems := [] }
              { block := 0, statement_index := 0 }).or_else
            (fun _ => borrow_spans envC1 0
              { block := 0, statement_index := 0 })).args_or_use =
          (move_spans envC1
            (envC1.move_data.move_paths (envC1.move_data.moves moi).path).place
            (envC1.move_data.moves moi).source).args_or_use) ↔
        (∃ s, (((move_spans envC1 { base := PlaceBase.local_ 1, elems := [] }
              { block := 0, statement_index := 0 }).or_else
            (fun _ => borrow_spans envC1 0
              { block := 0, statement_index := 0 })).args_or_use, s) ∈
            d.labels ∧
          (s = "value moved here in previous iteration of loop" ∨
            s = "value moved into closure here in previous iteration of loop"))) ∧
      ((∀ moi ∈ [(0 : MoveOutIndex)],
          ((move_spans envC1 { base := PlaceBase.local_ 1, elems := [] }
              { block := 0, statement_index := 0 }).or_else
            (fun _ => borrow_spans envC1 0
              { block := 0, statement_index := 0 })).args_or_use ≠
          (move_spans envC1
            (envC1.move_data.move_paths (envC1.move_data.moves moi).path).place
            (envC1.move_data.moves moi).source).args_or_use) ↔
        ((((move_spans envC1 { base := PlaceBase.local_ 1, elems := [] }
            { block := 0, statement_index := 0 }).or_else
            (fun _ => borrow_spans envC1 0
              { block := 0, statement_index := 0 })).args_or_use,
          "value read here after move") ∈ d.labels)) :=
  C4_loop_iteration_phrasing envC1 st0 { loc := { block := 0, statement_index := 0 } }
    InitializationRequiringAction.read { base := PlaceBase.local_ 1, elems := [] }
    0 0 (fun _ => true) 0 [] (by decide)

end BorrowCk
